import Mathlib

/-!
Verification development for the pimmp media-library scanner.

The definitions below are a shallow embedding of the Go sources
(`main.go`, `library.go`, `media.go`): classification tables, the entity
model and its record (de)serialization, the index-gateway state, the
recursive scan/load operations with their single-slot admission gates,
and the process-wide busy accounting.  Machine integers are modelled as
`Nat`/`Int` with explicit `% 2^64` where overflow matters; fallible
steps return `Option`.  Parts of the repository that are referenced but
whose definitions are not in the provided sources (the `Database`
wrapper, `ReturnCode`, the `Subtitles` record methods, the
subtitle-to-video matcher) are modelled from the specification and are
marked as such in their doc comments.
-/

/-- Enumeration `MediaKind` from media.go: the supported kinds of playable
media (`mkUnknown = -1`, `mkAudio = 0`, `mkVideo = 1`). -/
inductive MediaKind where
  | mkUnknown
  | mkAudio
  | mkVideo
  deriving DecidableEq, Repr

/-- Enumeration `MediaSupportKind` from media.go: kinds of files that
support media (`mskUnknown = -1`, `mskSubtitles = 0`). -/
inductive MediaSupportKind where
  | mskUnknown
  | mskSubtitles
  deriving DecidableEq, Repr

/-- Enumeration `EntityClass`: the two collection classes (media vs
support).  Declared in repository code outside the provided sources but
used throughout library.go (`ecMedia`, `ecSupport`, with an `ecUnknown`
sentinel). -/
inductive EntityClass where
  | ecUnknown
  | ecMedia
  | ecSupport
  deriving DecidableEq, Repr

/-- Error kinds of the repository's `ReturnCode` type (declared outside
the provided sources; the constructors below are exactly the codes that
library.go raises).  The formatted message attached by `specf` is not
modelled. -/
inductive RC where
  | rcInvalidLibrary
  | rcDuplicateLibrary
  | rcLibraryBusy
  | rcInvalidPath
  | rcInvalidStat
  | rcDirDepth
  | rcDirOpen
  | rcInvalidFile
  | rcDatabaseError
  deriving DecidableEq, Repr

/-- Type `ExtTable` from media.go: a mapping of the name of file types to
their common file name extensions.  Go iterates map entries in an
unspecified order; the model fixes the source's textual order, which is
a valid iteration order (lookup results differ at most in which of
several same-extension type names is returned, a don't-care per the
spec). -/
abbrev ExtTable : Type := List (String × List String)

/-- Model of `strings.ToLower`: per-character lowercasing.  It agrees
with Go on ASCII; the extension tables contain only ASCII strings, so
classification results coincide (a non-ASCII uppercase letter matches
no table under either function). -/
def goToLower (s : String) : String := String.mk (s.data.map Char.toLower)

/-- Function `kindOfFileExt()` from media.go: searches a given ExtTable
for the provided extension string, returning both the name of the
encoding and a flag indicating whether it was found. -/
def kindOfFileExt : ExtTable → String → String × Bool
  | [], _ => ("", false)
  | (n, l) :: rest, ext => if ext ∈ l then (n, true) else kindOfFileExt rest ext

/-- Extension table of `audioExt` from media.go (kind `mkAudio`). -/
def audioExtTable : ExtTable :=
  [ ("3D Solar UK Ltd", [".ivs"]),
    ("ACT Lossy ADPCM", [".act"]),
    ("Adaptive Multi-Rate", [".amr"]),
    ("Adaptive Multi-Rate Wideband", [".awb"]),
    ("Advanced Audio Coding", [".aac"]),
    ("Apple AIFF", [".aiff"]),
    ("Audible Audiobook", [".aa", ".aax"]),
    ("Dialogic ADPCM", [".vox"]),
    ("Digital Speech Standard", [".dss"]),
    ("Electronic Arts IFF-8SVX", [".8svx"]),
    ("Free Lossless Audio Codec", [".flac"]),
    ("GSM Telephony", [".gsm"]),
    ("iKlax Media", [".iklax"]),
    ("Linear PCM", [".sln"]),
    ("Microsoft WAV", [".wav"]),
    ("Microsoft Windows Media Audio", [".wma"]),
    ("Monkey's Audio", [".ape"]),
    ("MPEG Layer III", [".mp3"]),
    ("MPEG-4 Part 14", [".m4a", ".m4b"]),
    ("Musepack/MPC/MPEG", [".mpc"]),
    ("NCH Dictation", [".dct"]),
    ("Nintendo (NES) Sound Format", [".nsf"]),
    ("Ogg Audio", [".oga", ".mogg"]),
    ("Opus", [".opus"]),
    ("RAW Audio Format", [".raw"]),
    ("RealAudio", [".ra"]),
    ("Samsung Yamaha Ringtone", [".mmf"]),
    ("Sony Compressed Voice", [".dvf", ".msv"]),
    ("Sun/Unix/Java Audio", [".au"]),
    ("True Audio Lossless", [".tta"]),
    ("WavPack", [".wv"]) ]

/-- Extension table of `videoExt` from media.go (kind `mkVideo`). -/
def videoExtTable : ExtTable :=
  [ ("3GPP", [".3gp"]),
    ("3GPP2", [".3g2"]),
    ("Advanced Systems Format", [".asf"]),
    ("AMV video format", [".amv"]),
    ("Audio Video Interleave", [".avi"]),
    ("Dirac", [".drc"]),
    ("Flash Video", [".flv", ".f4v", ".f4p", ".f4a", ".f4b"]),
    ("Graphics Interchange Format Video", [".gifv"]),
    ("Material Exchange Format", [".mxf"]),
    ("Matroska", [".mkv"]),
    ("MPEG Transport Stream", [".mts", ".m2ts"]),
    ("MPEG-1", [".mp2", ".mpe", ".mpv"]),
    ("MPEG-1/MPEG-2", [".mpg", ".mpeg"]),
    ("MPEG-2", [".m2v"]),
    ("MPEG-4 Part 14", [".mp4", ".m4p", ".m4v"]),
    ("Multiple-image Network Graphics", [".mng"]),
    ("Nullsoft Streaming Video", [".nsv"]),
    ("Ogg Video", [".ogv", ".ogg"]),
    ("QuickTime File Format", [".mov", ".qt"]),
    ("Raw video format", [".yuv"]),
    ("RealMedia", [".rm"]),
    ("RealMedia Variable Bitrate", [".rmvb"]),
    ("RoQ FMV", [".roq"]),
    ("Standardized Video Interview", [".svi"]),
    ("Video Object", [".vob"]),
    ("WebM", [".webm"]),
    ("Windows Media Video", [".wmv"]) ]

/-- Extension table of `subsExt` from media.go (kind `mskSubtitles`). -/
def subsExtTable : ExtTable :=
  [ ("AQTitle", [".aqt"]),
    ("CVD", [".cvd"]),
    ("DKS", [".dks"]),
    ("Gloss Subtitle", [".gsub"]),
    ("JACOSub", [".jss"]),
    ("MPL2", [".mpl"]),
    ("Phoenix Subtitle", [".pjs"]),
    ("PowerDivX", [".psb"]),
    ("RealText / SMIL", [".rt"]),
    ("SAMI", [".smi"]),
    ("SubRip", [".srt"]),
    ("SubStation Alpha", [".ssa"]),
    ("Advanced SubStation Alpha", [".ass"]),
    ("Structured Subtitle Format", [".ssf"]),
    ("Spruce subtitle format", [".stl"]),
    ("MicroDVD", [".sub"]),
    ("MPSub", [".sub"]),
    ("SubViewer", [".sub"]),
    ("VobSub", [".sub", ".idx"]),
    ("SVCD", [".svcd"]),
    ("MPEG-4 Timed Text", [".ttxt"]),
    ("Universal Subtitle Format", [".usf"]) ]

/-- List of `(kind, table)` pairs that `mediaKindOfFileExt()` iterates,
in source order: `[]MediaExt{audioExt, videoExt}` (audio before video). -/
def mediaExtList : List (MediaKind × ExtTable) :=
  [(MediaKind.mkAudio, audioExtTable), (MediaKind.mkVideo, videoExtTable)]

/-- Helper for the iteration inside `mediaKindOfFileExt()`: returns the
first table whose extension list contains the (already lowercased)
extension, together with the matching type name. -/
def lookupKindTables : List (MediaKind × ExtTable) → String → Option (MediaKind × String)
  | [], _ => none
  | (k, t) :: rest, ext =>
      match kindOfFileExt t ext with
      | (n, true) => some (k, n)
      | _ => lookupKindTables rest ext

/-- Function `mediaKindOfFileExt()` from media.go: searches all MediaExt
mappings (audio table first, then video) for a given file name
extension, after lowercasing it, returning the MediaKind and the
type/encoding name; `(mkUnknown, "")` when no table matches. -/
def mediaKindOfFileExt (ext : String) : MediaKind × String :=
  match lookupKindTables mediaExtList (goToLower ext) with
  | some (k, n) => (k, n)
  | none => (MediaKind.mkUnknown, "")

/-- Helper for the iteration inside `mediaSupportKindOfFileExt()`. -/
def lookupSupportTables : List (MediaSupportKind × ExtTable) → String → Option (MediaSupportKind × String)
  | [], _ => none
  | (k, t) :: rest, ext =>
      match kindOfFileExt t ext with
      | (n, true) => some (k, n)
      | _ => lookupSupportTables rest ext

/-- Function `mediaSupportKindOfFileExt()` from media.go: searches all
MediaSupportExt mappings (the single subtitles table) for a given file
name extension, after lowercasing it; `(mskUnknown, "")` when no table
matches. -/
def mediaSupportKindOfFileExt (ext : String) : MediaSupportKind × String :=
  match lookupSupportTables [(MediaSupportKind.mskSubtitles, subsExtTable)] (goToLower ext) with
  | some (k, n) => (k, n)
  | none => (MediaSupportKind.mskUnknown, "")

/-- Name used by library.go's scanDive for the support-kind lookup
(`supportKindOfFileExt`); it is media.go's `mediaSupportKindOfFileExt`. -/
def supportKindOfFileExt : String → MediaSupportKind × String :=
  mediaSupportKindOfFileExt

/-- Type `Subtitles` from media.go: all information needed to associate a
subtitles file with a Media object.  Times are modelled as `Nat`
(nanoseconds since epoch), `os.FileMode` as `Nat`, byte sizes as `Int`
(Go `int64`); the opaque `sysInfo` source is dropped.  The exported
field `KnownVideoMedia` is referenced by library.go's
`recandidateSubtitles` but absent from media.go's declaration (the
provided sources are from different revisions); it is modelled from the
spec's "known-candidate-video list" as a list of video paths. -/
structure Subtitles where
  absPath : String := ""
  relPath : String := ""
  size : Int := 0
  mode : Nat := 0
  timeModified : Nat := 0
  ext : String := ""
  extName : String := ""
  knownVideoMedia : List String := []
  deriving DecidableEq, Repr

/-- Dynamic (interface-typed) values held in a `MediaRecord` field map.
Each constructor is one dynamic Go type occurring in media.go's
`toRecord`/`fromRecord` methods; a type assertion succeeds exactly when
the constructor matches.  `f64` models Go's `float64` dynamic type; its
payload is modelled integrally (only whole-number floats occur in this
development, and no claim depends on float arithmetic). -/
inductive GoVal where
  | str (s : String)
  | i64 (n : Int)
  | int (n : Int)
  | f64 (n : Int)
  | fileMode (m : Nat)
  | timeVal (t : Nat)
  | mediaKind (k : MediaKind)
  | sysInfo
  | subsList (l : List Subtitles)
  | subsVal (s : Subtitles)
  | ifaceList (l : List GoVal)

/-- Type `MediaRecord` from media.go: the field map stored in the
database for an individual record, modelled as an association list. -/
abbrev MediaRecord : Type := List (String × GoVal)

/-- Map lookup `v, ok = r[k]` on a MediaRecord. -/
def getField (r : MediaRecord) (k : String) : Option GoVal :=
  (r.find? (fun kv => kv.1 == k)).map (fun kv => kv.2)

/-- Type assertion `v.(string)`. -/
def GoVal.asString : GoVal → Option String
  | .str s => some s
  | _ => none

/-- Type assertion `v.(float64)`. -/
def GoVal.asFloat64 : GoVal → Option Int
  | .f64 n => some n
  | _ => none

/-- Type assertion `v.(int)`. -/
def GoVal.asInt : GoVal → Option Int
  | .int n => some n
  | _ => none

/-- Type assertion `v.([]interface\x7b\x7d)`. -/
def GoVal.asIfaceList : GoVal → Option (List GoVal)
  | .ifaceList l => some l
  | _ => none

/-- Type assertion `v.(Subtitles)`. -/
def GoVal.asSubtitles : GoVal → Option Subtitles
  | .subsVal s => some s
  | _ => none

/-- Conversion `MediaKind(i)` used by `fromRecord` (out-of-range values
collapse to the unknown sentinel; in Go the raw integer is kept, but no
code path distinguishes the two behaviours). -/
def mediaKindOfInt (i : Int) : MediaKind :=
  if i = 0 then MediaKind.mkAudio else if i = 1 then MediaKind.mkVideo else MediaKind.mkUnknown

/-- Type `Media` from media.go: struct fields common to audio and video.
`sysInfo` is kept as a dynamic value (its only uses are to store and
reload it untyped). -/
structure Media where
  absPath : String := ""
  relPath : String := ""
  size : Int := 0
  mode : Nat := 0
  timeModified : Nat := 0
  sysInfo : GoVal := GoVal.sysInfo
  kind : MediaKind := MediaKind.mkUnknown
  ext : String := ""
  extName : String := ""
  name : String := ""
  timeAdded : Nat := 0
  playbackCommand : String := ""
  title : String := ""
  description : String := ""
  releaseDate : Nat := 0

/-- Type `AudioMedia` from media.go: Media plus album/track. -/
structure AudioMedia where
  media : Media := {}
  album : String := ""
  track : Int := 0

/-- Type `VideoMedia` from media.go: Media plus known/selected subtitles. -/
structure VideoMedia where
  media : Media := {}
  knownSubtitles : List Subtitles := []
  subtitles : Subtitles := {}

/-- Per-file attributes delivered by `os.Lstat` for a regular file
(size, mode bits, modification time; `Name()` is carried by the tree
node). -/
structure FileAttrs where
  size : Int := 0
  mode : Nat := 0
  modTime : Nat := 0
  deriving DecidableEq, Repr

/-- Function `newMedia()` from media.go: creates and initializes a new
Media object from the file's live attributes.  `timeAdded` receives the
traversal's current time (`time.Now()`), passed in as `now`. -/
def newMedia (absPath relPath : String) (kind : MediaKind) (ext extName : String)
    (name : String) (info : FileAttrs) (now : Nat) : Media :=
  { absPath := absPath
    relPath := relPath
    size := info.size
    mode := info.mode
    timeModified := info.modTime
    sysInfo := GoVal.sysInfo
    kind := kind
    ext := ext
    extName := extName
    name := name
    timeAdded := now
    playbackCommand := "--"
    title := name
    description := "--"
    releaseDate := 0 }

/-- Function `newAudioMedia()` from media.go. -/
def newAudioMedia (absPath relPath ext extName name : String) (info : FileAttrs) (now : Nat) : AudioMedia :=
  { media := newMedia absPath relPath MediaKind.mkAudio ext extName name info now
    album := ""
    track := -1 }

/-- Function `newVideoMedia()` from media.go. -/
def newVideoMedia (absPath relPath ext extName name : String) (info : FileAttrs) (now : Nat) : VideoMedia :=
  { media := newMedia absPath relPath MediaKind.mkVideo ext extName name info now
    knownSubtitles := []
    subtitles := {} }

/-- Function `newSubtitles()` from media.go. -/
def newSubtitles (absPath relPath ext extName : String) (info : FileAttrs) : Subtitles :=
  { absPath := absPath
    relPath := relPath
    size := info.size
    mode := info.mode
    timeModified := info.modTime
    ext := ext
    extName := extName
    knownVideoMedia := [] }

/-- Method `(*AudioMedia).toRecord()` from media.go: field map with the
fields' native dynamic types (strings stay strings, `int64` sizes stay
`int64`, times stay `time.Time`, the `track` int stays `int`). -/
def AudioMedia.toRecord (m : AudioMedia) : MediaRecord :=
  [ ("absPath", GoVal.str m.media.absPath),
    ("relPath", GoVal.str m.media.relPath),
    ("size", GoVal.i64 m.media.size),
    ("mode", GoVal.fileMode m.media.mode),
    ("timeModified", GoVal.timeVal m.media.timeModified),
    ("sysInfo", m.media.sysInfo),
    ("kind", GoVal.mediaKind m.media.kind),
    ("ext", GoVal.str m.media.ext),
    ("extName", GoVal.str m.media.extName),
    ("name", GoVal.str m.media.name),
    ("timeAdded", GoVal.timeVal m.media.timeAdded),
    ("playbackCommand", GoVal.str m.media.playbackCommand),
    ("title", GoVal.str m.media.title),
    ("description", GoVal.str m.media.description),
    ("releaseDate", GoVal.timeVal m.media.releaseDate),
    ("album", GoVal.str m.album),
    ("track", GoVal.int m.track) ]

/-- Method `(*VideoMedia).toRecord()` from media.go. -/
def VideoMedia.toRecord (m : VideoMedia) : MediaRecord :=
  [ ("absPath", GoVal.str m.media.absPath),
    ("relPath", GoVal.str m.media.relPath),
    ("size", GoVal.i64 m.media.size),
    ("mode", GoVal.fileMode m.media.mode),
    ("timeModified", GoVal.timeVal m.media.timeModified),
    ("sysInfo", m.media.sysInfo),
    ("kind", GoVal.mediaKind m.media.kind),
    ("ext", GoVal.str m.media.ext),
    ("extName", GoVal.str m.media.extName),
    ("name", GoVal.str m.media.name),
    ("timeAdded", GoVal.timeVal m.media.timeAdded),
    ("playbackCommand", GoVal.str m.media.playbackCommand),
    ("title", GoVal.str m.media.title),
    ("description", GoVal.str m.media.description),
    ("releaseDate", GoVal.timeVal m.media.releaseDate),
    ("knownSubtitles", GoVal.subsList m.knownSubtitles),
    ("subtitles", GoVal.subsVal m.subtitles) ]

/-- One field-restore step of `fromRecord`: `v, ok = r[k]; if ok \x7b m.f =
convert(v) \x7d`, where the conversion contains a type assertion that (in
Go) panics on a dynamic-type mismatch; the panic is modelled as `none`. -/
def fieldStep {σ α : Type} (r : MediaRecord) (k : String) (get : GoVal → Option α)
    (set : σ → α → σ) (m : σ) : Option σ :=
  match getField r k with
  | none => some m
  | some v => (get v).map (set m)

/-- Method `(*AudioMedia).fromRecord()` from media.go, one `fieldStep`
per source statement in source order.  `parse` abstracts
`time.Parse(defaultTimeLayout, s)` (the layout constant lives outside
the provided sources); the source discards the parse error, so `parse`
is total.  The nil-guard on the embedded `Media` pointer is implicit:
the model's receiver always carries a `Media` value. -/
def AudioMedia.fromRecord (parse : String → Nat) (m : AudioMedia) (r : MediaRecord) : Option AudioMedia :=
  (some m).bind
    (fieldStep r "absPath" GoVal.asString (fun m v => { m with media := { m.media with absPath := v } })) |>.bind
    (fieldStep r "relPath" GoVal.asString (fun m v => { m with media := { m.media with relPath := v } })) |>.bind
    (fieldStep r "size" GoVal.asFloat64 (fun m v => { m with media := { m.media with size := v } })) |>.bind
    (fieldStep r "mode" GoVal.asFloat64 (fun m v => { m with media := { m.media with mode := v.toNat } })) |>.bind
    (fieldStep r "timeModified" GoVal.asString (fun m v => { m with media := { m.media with timeModified := parse v } })) |>.bind
    (fieldStep r "sysInfo" some (fun m v => { m with media := { m.media with sysInfo := v } })) |>.bind
    (fieldStep r "kind" GoVal.asFloat64 (fun m v => { m with media := { m.media with kind := mediaKindOfInt v } })) |>.bind
    (fieldStep r "ext" GoVal.asString (fun m v => { m with media := { m.media with ext := v } })) |>.bind
    (fieldStep r "extName" GoVal.asString (fun m v => { m with media := { m.media with extName := v } })) |>.bind
    (fieldStep r "name" GoVal.asString (fun m v => { m with media := { m.media with name := v } })) |>.bind
    (fieldStep r "timeAdded" GoVal.asString (fun m v => { m with media := { m.media with timeAdded := parse v } })) |>.bind
    (fieldStep r "playbackCommand" GoVal.asString (fun m v => { m with media := { m.media with playbackCommand := v } })) |>.bind
    (fieldStep r "title" GoVal.asString (fun m v => { m with media := { m.media with title := v } })) |>.bind
    (fieldStep r "description" GoVal.asString (fun m v => { m with media := { m.media with description := v } })) |>.bind
    (fieldStep r "releaseDate" GoVal.asString (fun m v => { m with media := { m.media with releaseDate := parse v } })) |>.bind
    (fieldStep r "album" GoVal.asString (fun m v => { m with album := v })) |>.bind
    (fieldStep r "track" GoVal.asInt (fun m v => { m with track := v }))

/-- Method `(*VideoMedia).fromRecord()` from media.go.  The
`knownSubtitles` step asserts `v.([]interface\x7b\x7d)` and then each element
as `Subtitles`; the `subtitles` step checks key presence but its
assignment is commented out in the source, so the selected subtitle is
never restored. -/
def VideoMedia.fromRecord (parse : String → Nat) (m : VideoMedia) (r : MediaRecord) : Option VideoMedia :=
  (some m).bind
    (fieldStep r "absPath" GoVal.asString (fun m v => { m with media := { m.media with absPath := v } })) |>.bind
    (fieldStep r "relPath" GoVal.asString (fun m v => { m with media := { m.media with relPath := v } })) |>.bind
    (fieldStep r "size" GoVal.asFloat64 (fun m v => { m with media := { m.media with size := v } })) |>.bind
    (fieldStep r "mode" GoVal.asFloat64 (fun m v => { m with media := { m.media with mode := v.toNat } })) |>.bind
    (fieldStep r "timeModified" GoVal.asString (fun m v => { m with media := { m.media with timeModified := parse v } })) |>.bind
    (fieldStep r "sysInfo" some (fun m v => { m with media := { m.media with sysInfo := v } })) |>.bind
    (fieldStep r "kind" GoVal.asFloat64 (fun m v => { m with media := { m.media with kind := mediaKindOfInt v } })) |>.bind
    (fieldStep r "ext" GoVal.asString (fun m v => { m with media := { m.media with ext := v } })) |>.bind
    (fieldStep r "extName" GoVal.asString (fun m v => { m with media := { m.media with extName := v } })) |>.bind
    (fieldStep r "name" GoVal.asString (fun m v => { m with media := { m.media with name := v } })) |>.bind
    (fieldStep r "timeAdded" GoVal.asString (fun m v => { m with media := { m.media with timeAdded := parse v } })) |>.bind
    (fieldStep r "playbackCommand" GoVal.asString (fun m v => { m with media := { m.media with playbackCommand := v } })) |>.bind
    (fieldStep r "title" GoVal.asString (fun m v => { m with media := { m.media with title := v } })) |>.bind
    (fieldStep r "description" GoVal.asString (fun m v => { m with media := { m.media with description := v } })) |>.bind
    (fieldStep r "releaseDate" GoVal.asString (fun m v => { m with media := { m.media with releaseDate := parse v } })) |>.bind
    (fieldStep r "knownSubtitles"
      (fun v => (GoVal.asIfaceList v).bind (fun l => l.mapM GoVal.asSubtitles))
      (fun m v => { m with knownSubtitles := v })) |>.bind
    (fieldStep r "subtitles" (fun _ => some ()) (fun m _ => m))

/-- Modulus of Go's `uint64`, the type of both busy counters. -/
def uint64Mod : Nat := 2 ^ 64

/-- Type `BusyState` from main.go: the process-wide count of busy
goroutines plus the UI-cycle counter.  Values sent on the `changed`
channel are recorded in order. -/
structure BusyState where
  busyCount : Nat := 0
  busyCycle : Nat := 0
  changed : List Nat := []

/-- Method `(*BusyState).reset()` from main.go: store 0 into the cycle
counter. -/
def BusyState.reset (s : BusyState) : BusyState := { s with busyCycle := 0 }

/-- Method `(*BusyState).inc()` from main.go: atomic add of 1 to the busy
count (wrapping at `2^64`), publish the new count on `changed`, and
reset the cycle counter when the new count is exactly 1. -/
def BusyState.inc (s : BusyState) : BusyState × Nat :=
  let newCount := (s.busyCount + 1) % uint64Mod
  let s1 : BusyState := { s with busyCount := newCount, changed := s.changed ++ [newCount] }
  (if newCount = 1 then s1.reset else s1, newCount)

/-- Method `(*BusyState).dec()` from main.go: atomic add of `^uint64(0)`
(that is, `2^64 - 1`) to the busy count modulo `2^64`, publish the new
count, and reset the cycle counter when the new count is exactly 0. -/
def BusyState.dec (s : BusyState) : BusyState × Nat :=
  let newCount := (s.busyCount + (uint64Mod - 1)) % uint64Mod
  let s1 : BusyState := { s with busyCount := newCount, changed := s.changed ++ [newCount] }
  (if newCount = 0 then s1.reset else s1, newCount)

/-- Method `(*BusyState).next()` from main.go: atomic add of 1 to the
cycle counter. -/
def BusyState.next (s : BusyState) : BusyState × Nat :=
  let newCycle := (s.busyCycle + 1) % uint64Mod
  ({ s with busyCycle := newCycle }, newCycle)

/-- Constant `depthUnlimited = 0` from library.go. -/
def depthUnlimited : Nat := 0

/-- Constant `maxLibraryScanners = 1` from library.go: the capacity of
each admission gate's buffered channel. -/
def maxLibraryScanners : Nat := 1

/-- One document collection of the Index Gateway.  Modelled from the
spec: the gateway (tiedot, wrapped by the repository's `Database` unit,
neither under the provided sources) stores field-map records under
store-assigned integer identifiers; identifiers are assigned
sequentially in the model. -/
structure Collection where
  recs : List (Nat × MediaRecord) := []
  nextId : Nat := 0

/-- Record matches an equality query on the indexed `absPath` field
exactly when its `absPath` field holds that string. -/
def recMatchesPath (r : MediaRecord) (p : String) : Bool :=
  match getField r "absPath" with
  | some (GoVal.str s) => s == p
  | _ => false

/-- Modelled from the spec: `db.EvalQuery` with an `eq` clause on the
indexed `absPath` field returns the identifiers of all records whose
`absPath` equals the queried path. -/
def evalQueryPath (c : Collection) (p : String) : List Nat :=
  (c.recs.filter (fun ir => recMatchesPath ir.2 p)).map (fun ir => ir.1)

/-- Modelled from the spec: collection insert appends the record and
returns the store-assigned identifier. -/
def Collection.insert (c : Collection) (r : MediaRecord) : Collection × Nat :=
  ({ recs := c.recs ++ [(c.nextId, r)], nextId := c.nextId + 1 }, c.nextId)

/-- Number of records of a collection whose indexed `absPath` equals `p`
(the size of the result set of `evalQueryPath`). -/
def pathCount (c : Collection) (p : String) : Nat :=
  (evalQueryPath c p).length

/-- The per-library `Database` of library.go (its defining unit is not
under the provided sources; modelled from the spec): one collection per
(class, kind) pair -- media/audio, media/video, support/subtitles --
plus the per-collection counters of records added via scan and via
load. -/
structure Database where
  audio : Collection := {}
  video : Collection := {}
  subs : Collection := {}
  numRecordsScanAudio : Nat := 0
  numRecordsScanVideo : Nat := 0
  numRecordsScanSubs : Nat := 0
  numRecordsLoadAudio : Nat := 0
  numRecordsLoadVideo : Nat := 0
  numRecordsLoadSubs : Nat := 0

/-- Function `seenFile()` (closure inside library.go's scanDive): checks
whether the file's absolute path already appears in the (class, kind)
collection, by an equality query on the indexed path field.  The query
itself cannot fail in the model (the path index exists for every
collection), so the error component of the source closure is dropped;
the unknown-class guard collapses to the catch-all row. -/
def seenFile (db : Database) (cls : EntityClass) (kind : Nat) (p : String) : Bool :=
  match cls, kind with
  | EntityClass.ecMedia, 0 => decide (0 < pathCount db.audio p)
  | EntityClass.ecMedia, 1 => decide (0 < pathCount db.video p)
  | EntityClass.ecSupport, 0 => decide (0 < pathCount db.subs p)
  | _, _ => false

/-- A node of the file tree under a library root, as distinguished by
library.go's scanDive mode switch: regular file (with its lstat
attributes), directory, symbolic link, or special file (device, named
pipe, socket, character device). -/
inductive FsNode where
  | file (name : String) (info : FileAttrs)
  | dir (name : String) (entries : List FsNode)
  | symlink (name : String)
  | special (name : String)

/-- Base name of a tree node (`info.Name()`). -/
def FsNode.name : FsNode → String
  | .file n _ => n
  | .dir n _ => n
  | .symlink n => n
  | .special n => n

/-- Observable steps of the engine: traversal visits, index queries and
inserts, handler notifications, per-entry conditions, reconciliation
match attempts, load notifications, and busy-gauge operations. -/
inductive Event where
  | sawFile (path : String) (depth : Nat)
  | queried (path : String)
  | inserted (path : String)
  | handledMedia (path : String)
  | handledSupport (path : String)
  | handledOther (path : String)
  | dirDepth (path : String) (depth : Nat)
  | invalidFile (path : String)
  | matchAttempt (path : String)
  | loadedMedia (path : String)
  | loadedSupport (path : String)
  | busyInc
  | busyDec
  deriving DecidableEq, Repr

/-- Event classifier for record insertions. -/
def Event.isInserted : Event → Bool
  | .inserted _ => true
  | _ => false

/-- Result of one `scanDive` call: the updated database, the events in
order, and the returned error code. -/
structure ScanOut where
  db : Database
  evs : List Event
  err : Option RC

/-- Model of Go's `path.Ext`: the suffix beginning at the final dot in
the final slash-separated element of the path; empty when that element
has no dot. -/
def goPathExt (p : String) : String :=
  let seg := p.data.reverse.takeWhile (fun c => c ≠ '/')
  let pre := seg.takeWhile (fun c => c ≠ '.')
  if pre.length = seg.length then "" else String.mk ('.' :: pre.reverse)

/-- Model of `path.Join(dir, name)` for a clean directory path and a
slash-free entry name (the shapes produced by the traversal). -/
def pathJoin (dir name : String) : String := dir ++ "/" ++ name

/-- Model of `filepath.Rel(root, p)` for `p` under `root` (the only
shape the traversal produces); it cannot fail on these inputs, so
scanDive's rcInvalidPath branch is dead in the model. -/
def goRel (root p : String) : String :=
  if root.isPrefixOf p then (p.drop root.length).dropWhile (fun c => c = '/') else p

/-- The scanDive-relevant slice of the Library: depth limit, canonical
root path, and the traversal's wall-clock instant (feeding
`time.Now()` at entity construction). -/
structure ScanCfg where
  maxDepth : Nat
  rootPath : String
  now : Nat

/-- Modelled from the spec: `(*Subtitles).toRecord()` is called by
scanDive and declared in repository code outside the provided sources;
per the spec's entity model it persists the common file attributes
(augmented by the subtitle's known-candidate-video list) as a field map,
with the absolute path under the indexed `absPath` key. -/
def Subtitles.toRecord (s : Subtitles) : MediaRecord :=
  [ ("absPath", GoVal.str s.absPath),
    ("relPath", GoVal.str s.relPath),
    ("size", GoVal.i64 s.size),
    ("mode", GoVal.fileMode s.mode),
    ("timeModified", GoVal.timeVal s.timeModified),
    ("ext", GoVal.str s.ext),
    ("extName", GoVal.str s.extName),
    ("knownVideoMedia", GoVal.ifaceList (s.knownVideoMedia.map GoVal.str)) ]

/-- The regular-file branch of scanDive (the source's default case of
the file-mode switch, inlined in library.go; named here so its effect
can be characterized separately): classify by extension, query the
(class, kind) collection for the absolute path, and when unseen insert
the freshly built entity and notify the class handler; unmatched
extensions go to the other-handler with no query and no insert. -/
def scanFile (cfg : ScanCfg) (db : Database) (name : String) (info : FileAttrs)
    (absPath : String) (depth : Nat) : ScanOut :=
  let relPath := goRel cfg.rootPath absPath
  let ext := goPathExt absPath
  match mediaKindOfFileExt ext with
  | (MediaKind.mkAudio, extName) =>
      if seenFile db EntityClass.ecMedia 0 absPath then
        { db := db, evs := [Event.sawFile absPath depth, Event.queried absPath], err := none }
      else
        let audio := newAudioMedia absPath relPath ext extName name info cfg.now
        let ins := db.audio.insert audio.toRecord
        { db := { db with audio := ins.1, numRecordsScanAudio := db.numRecordsScanAudio + 1 }
          evs := [Event.sawFile absPath depth, Event.queried absPath,
                  Event.inserted absPath, Event.handledMedia absPath]
          err := none }
  | (MediaKind.mkVideo, extName) =>
      if seenFile db EntityClass.ecMedia 1 absPath then
        { db := db, evs := [Event.sawFile absPath depth, Event.queried absPath], err := none }
      else
        let video := newVideoMedia absPath relPath ext extName name info cfg.now
        let ins := db.video.insert video.toRecord
        { db := { db with video := ins.1, numRecordsScanVideo := db.numRecordsScanVideo + 1 }
          evs := [Event.sawFile absPath depth, Event.queried absPath,
                  Event.inserted absPath, Event.handledMedia absPath]
          err := none }
  | _ =>
      match supportKindOfFileExt ext with
      | (MediaSupportKind.mskSubtitles, extName) =>
          if seenFile db EntityClass.ecSupport 0 absPath then
            { db := db, evs := [Event.sawFile absPath depth, Event.queried absPath], err := none }
          else
            let subs := newSubtitles absPath relPath ext extName info
            let ins := db.subs.insert subs.toRecord
            { db := { db with subs := ins.1, numRecordsScanSubs := db.numRecordsScanSubs + 1 }
              evs := [Event.sawFile absPath depth, Event.queried absPath,
                      Event.inserted absPath, Event.handledSupport absPath]
              err := none }
      | _ =>
          { db := db, evs := [Event.sawFile absPath depth, Event.handledOther absPath], err := none }

mutual

/-- Function `(*Library).scanDive()` from library.go: the recursive step
of the traversal.  Directories recurse one level deeper unless the
depth limit is exceeded; symlinks and special files are rejected as
InvalidFile; a regular file is classified by its extension, checked
against the index (`seenFile`), and indexed plus handed to the class
handler when previously unseen.  Per-child errors inside a directory
are logged and swallowed (`warnLog.trace`), so a directory itself
returns nil.  The lstat, directory-listing, record-construction, query
and insert failure branches of the source are dead in this model
(the model filesystem and gateway are total). -/
def scanDive (cfg : ScanCfg) (db : Database) (node : FsNode) (absPath : String) (depth : Nat) : ScanOut :=
  match node with
  | FsNode.dir _ entries =>
      if depthUnlimited ≠ cfg.maxDepth ∧ depth > cfg.maxDepth then
        { db := db, evs := [Event.dirDepth absPath depth], err := some RC.rcDirDepth }
      else
        scanDiveEntries cfg db entries absPath depth
  | FsNode.symlink _ =>
      { db := db, evs := [Event.invalidFile absPath], err := some RC.rcInvalidFile }
  | FsNode.special _ =>
      { db := db, evs := [Event.invalidFile absPath], err := some RC.rcInvalidFile }
  | FsNode.file name info =>
      scanFile cfg db name info absPath depth

/-- The child loop of scanDive's directory branch: recurse into each
entry at depth+1 under the joined path; a child's error is logged and
swallowed so the remaining siblings are still visited. -/
def scanDiveEntries (cfg : ScanCfg) (db : Database) (entries : List FsNode) (parent : String) (depth : Nat) : ScanOut :=
  match entries with
  | [] => { db := db, evs := [], err := none }
  | e :: rest =>
      let r1 := scanDive cfg db e (pathJoin parent e.name) (depth + 1)
      let r2 := scanDiveEntries cfg r1.db rest parent depth
      { db := r2.db, evs := r1.evs ++ r2.evs, err := none }

end

/-- String read of a record field (empty when absent or non-string). -/
def getStr (r : MediaRecord) (k : String) : String :=
  match getField r k with
  | some (GoVal.str s) => s
  | _ => ""

/-- Modelled from the spec: the load/reconcile-side `Subtitles`
deserialization (`subs.fromRecord(data)` over the raw stored record;
its defining revision is not under the provided sources).  Per the
spec's entity model it restores the common attributes and the
known-candidate-video list, with missing fields left at their zero
values. -/
def subtitlesOfRecord (r : MediaRecord) : Subtitles :=
  { absPath := getStr r "absPath"
    relPath := getStr r "relPath"
    size := (match getField r "size" with | some (GoVal.i64 n) => n | _ => 0)
    mode := (match getField r "mode" with | some (GoVal.fileMode m) => m | _ => 0)
    timeModified := (match getField r "timeModified" with | some (GoVal.timeVal t) => t | _ => 0)
    ext := getStr r "ext"
    extName := getStr r "extName"
    knownVideoMedia :=
      (match getField r "knownVideoMedia" with
        | some (GoVal.ifaceList l) => l.filterMap GoVal.asString
        | _ => []) }

/-- Type `RecordID` (spec's record identifier): a storage-assigned
integer ID paired with the in-memory entity it backs; library.go's
`recandidateSubtitles` fills it with `Subtitles` values. -/
structure RecordID where
  id : Nat
  entity : Subtitles

/-- Outcome of one `findCandidates` call: the (possibly updated)
database, the candidate videos found, and an error. -/
structure MatchOut where
  db : Database
  vids : List VideoMedia
  err : Option RC

/-- Modelled from the spec: `(*Subtitles).findCandidates(lib, update,
id)` is declared in repository code outside the provided sources, and
the spec leaves the matching heuristic open; the model therefore
abstracts it as an arbitrary function of the database, the subtitle and
its record ID. -/
abbrev Matcher := Database → Subtitles → Nat → MatchOut

/-- The orphan-processing loop inside `recandidateSubtitles`: each
orphan is matched in turn; a matching error aborts the loop
immediately and becomes the function's return value (the source's
`remain` accumulator only feeds a warning log and is not modelled). -/
def recandidateLoop (matcher : Matcher) (db : Database) : List RecordID → Database × List Event × Option RC
  | [] => (db, [], none)
  | o :: rest =>
      let m := matcher db o.entity o.id
      match m.err with
      | some e => (m.db, [Event.matchAttempt o.entity.absPath], some e)
      | none =>
          let r := recandidateLoop matcher m.db rest
          (r.1, Event.matchAttempt o.entity.absPath :: r.2.1, r.2.2)

/-- Function `(*Library).recandidateSubtitles()` from library.go:
iterate every stored subtitle record, collect the orphans (all records
under force mode, else those whose known-candidate-video list is
empty), then try to find candidate videos for each orphan, stopping at
the first matching error and returning it; nil when every orphan was
processed (or there were none). -/
def recandidateSubtitles (matcher : Matcher) (db : Database) (force : Bool) : Database × List Event × Option RC :=
  let orphan := db.subs.recs.foldl
    (fun acc ir =>
      let subs := subtitlesOfRecord ir.2
      if force ∨ subs.knownVideoMedia.length = 0 then acc ++ [RecordID.mk ir.1 subs] else acc)
    []
  if 0 < orphan.length then recandidateLoop matcher db orphan
  else (db, [], none)

/-- Type `Library` from library.go.  The two buffered admission
channels are modelled by their occupancy (`loadStartCount`,
`scanStartCount`, capacity `maxLibraryScanners = 1`) plus the buffered
start instant; `loadComplete`/`scanComplete`, the TUI handle and the
data-directory path take no part in the modelled operations. -/
structure Library where
  workingDir : String := ""
  absPath : String := ""
  name : String := ""
  maxDepth : Nat := 0
  db : Database := {}
  loadStartCount : Nat := 0
  loadStartTime : Nat := 0
  loadElapsed : Nat := 0
  scanStartCount : Nat := 0
  scanStartTime : Nat := 0
  scanElapsed : Nat := 0
  lastScan : Nat := 0

/-- Result of a `load()` or `scan()` call: the updated library and busy
state, the returned count, the returned error, and the events in
order. -/
structure OpOut where
  lib : Library
  busy : BusyState
  count : Nat
  err : Option RC
  evs : List Event

/-- Absolute path stored in a record (empty when absent): what loadDive
hands to the discovery handlers. -/
def recPathOrEmpty (r : MediaRecord) : String := getStr r "absPath"

/-- Function `(*Library).loadDive()` from library.go: iterate every
record of the (class, kind) collection, deserialize it and notify the
class handler, counting every record visited; its error result is
declared nil and never assigned, so it is always `none`.  The
deserialized entity is only passed to the handler, which the model
records as an event carrying the entity's persisted absolute path. -/
def loadDive (db : Database) (cls : EntityClass) (kind : Nat) : Nat × List Event × Option RC :=
  match cls, kind with
  | EntityClass.ecMedia, 0 =>
      (db.audio.recs.length, db.audio.recs.map (fun ir => Event.loadedMedia (recPathOrEmpty ir.2)), none)
  | EntityClass.ecMedia, 1 =>
      (db.video.recs.length, db.video.recs.map (fun ir => Event.loadedMedia (recPathOrEmpty ir.2)), none)
  | EntityClass.ecSupport, 0 =>
      (db.subs.recs.length, db.subs.recs.map (fun ir => Event.loadedSupport (recPathOrEmpty ir.2)), none)
  | _, _ => (0, [], none)

/-- Function `(*Library).load()` from library.go: non-blocking write to
the capacity-1 `loadStart` channel; on success increment the busy gauge
(unless in CLI mode), run loadDive over every (class, kind) collection
recording per-collection load counts, then free the slot, decrement the
gauge and report the total; when the channel is full, fail immediately
with LibraryBusy and touch nothing.  The mid-loop early return on a
loadDive error keeps the slot and the gauge (mirroring the source), but
is dead because loadDive's error is always nil. -/
def Library.load (cli : Bool) (tStart tEnd : Nat) (l : Library) (busy : BusyState) : OpOut :=
  if l.loadStartCount < maxLibraryScanners then
    let l1 : Library := { l with loadStartCount := l.loadStartCount + 1, loadStartTime := tStart }
    let b1 := if cli then busy else (busy.inc).1
    let evInc : List Event := if cli then [] else [Event.busyInc]
    match loadDive l1.db EntityClass.ecMedia 0 with
    | (nA, evA, some e) =>
        { lib := { l1 with db := { l1.db with numRecordsLoadAudio := nA } },
          busy := b1
          count := 0
          err := some e
          evs := evInc ++ evA }
    | (nA, evA, none) =>
        match loadDive l1.db EntityClass.ecMedia 1 with
        | (nV, evV, some e) =>
            { lib := { l1 with db := { l1.db with numRecordsLoadAudio := nA, numRecordsLoadVideo := nV } }
              busy := b1
              count := 0
              err := some e
              evs := evInc ++ evA ++ evV }
        | (nV, evV, none) =>
            match loadDive l1.db EntityClass.ecSupport 0 with
            | (nS, evS, some e) =>
                { lib := { l1 with db := { l1.db with numRecordsLoadAudio := nA, numRecordsLoadVideo := nV, numRecordsLoadSubs := nS } }
                  busy := b1
                  count := 0
                  err := some e
                  evs := evInc ++ evA ++ evV ++ evS }
            | (nS, evS, none) =>
                let l2 : Library := { l1 with db := { l1.db with numRecordsLoadAudio := nA, numRecordsLoadVideo := nV, numRecordsLoadSubs := nS } }
                let l3 : Library := { l2 with loadElapsed := tEnd - l2.loadStartTime, loadStartCount := l2.loadStartCount - 1 }
                let b2 := if cli then b1 else (b1.dec).1
                let evDec : List Event := if cli then [] else [Event.busyDec]
                { lib := l3
                  busy := b2
                  count := nA + nV + nS
                  err := none
                  evs := evInc ++ evA ++ evV ++ evS ++ evDec }
  else
    { lib := l, busy := busy, count := 0, err := some RC.rcLibraryBusy, evs := [] }

/-- Function `(*Library).scan()` from library.go: non-blocking write to
the capacity-1 `scanStart` channel; on success increment the busy gauge
(unless in CLI mode), run scanDive from the root at depth 1, then --
only when the traversal returned nil -- run `recandidateSubtitles`
discarding its return code, record `lastScan` and the elapsed time,
free the slot, decrement the gauge and return the scan-counter total
together with scanDive's error; when the channel is full, fail
immediately with LibraryBusy and touch nothing. -/
def Library.scan (cli : Bool) (matcher : Matcher) (fs : FsNode) (tStart tEnd now : Nat)
    (l : Library) (busy : BusyState) : OpOut :=
  if l.scanStartCount < maxLibraryScanners then
    let l1 : Library := { l with scanStartCount := l.scanStartCount + 1, scanStartTime := tStart }
    let b1 := if cli then busy else (busy.inc).1
    let evInc : List Event := if cli then [] else [Event.busyInc]
    let r := scanDive { maxDepth := l1.maxDepth, rootPath := l1.absPath, now := now } l1.db fs l1.absPath 1
    let after :=
      match r.err with
      | none => (recandidateSubtitles matcher r.db false).1
      | some _ => r.db
    let evR : List Event :=
      match r.err with
      | none => (recandidateSubtitles matcher r.db false).2.1
      | some _ => []
    let l2 : Library := { l1 with db := after, lastScan := now, scanElapsed := tEnd - l1.scanStartTime, scanStartCount := l1.scanStartCount - 1 }
    let b2 := if cli then b1 else (b1.dec).1
    let evDec : List Event := if cli then [] else [Event.busyDec]
    { lib := l2
      busy := b2
      count := after.numRecordsScanAudio + after.numRecordsScanVideo + after.numRecordsScanSubs
      err := r.err
      evs := evInc ++ r.evs ++ evR ++ evDec }
  else
    { lib := l, busy := busy, count := 0, err := some RC.rcLibraryBusy, evs := [] }

mutual

/-- Files reached by a traversal with depth limit `maxDepth` starting at
`node`/`absPath`/`depth`: the pairs (absolute path, depth) of the
regular files the recursion's directory walk arrives at, mirroring
scanDive's pruning rule.  With `maxDepth = 0` this is every regular
file of the tree. -/
def reachFiles (maxDepth : Nat) (node : FsNode) (absPath : String) (depth : Nat) : List (String × Nat) :=
  match node with
  | FsNode.dir _ entries =>
      if depthUnlimited ≠ maxDepth ∧ depth > maxDepth then []
      else reachFilesEntries maxDepth entries absPath depth
  | FsNode.file _ _ => [(absPath, depth)]
  | FsNode.symlink _ => []
  | FsNode.special _ => []

/-- Child-list companion of `reachFiles`. -/
def reachFilesEntries (maxDepth : Nat) (entries : List FsNode) (parent : String) (depth : Nat) : List (String × Nat) :=
  match entries with
  | [] => []
  | e :: rest =>
      reachFiles maxDepth e (pathJoin parent e.name) (depth + 1)
        ++ reachFilesEntries maxDepth rest parent depth

end

/-- Paths of the reached files. -/
def reachPaths (maxDepth : Nat) (node : FsNode) (absPath : String) (depth : Nat) : List String :=
  (reachFiles maxDepth node absPath depth).map Prod.fst

/-- The collection a file path is routed to, following scanDive's
dispatch: the media lookup first (audio before video), then the
subtitle lookup, else "other" (no collection). -/
inductive FileBucket where
  | audio
  | video
  | subs
  | other
  deriving DecidableEq, Repr

/-- Bucket of an absolute path, computed exactly as scanDive's switch on
`mediaKindOfFileExt` and `supportKindOfFileExt` over `path.Ext`. -/
def bucketOf (p : String) : FileBucket :=
  match mediaKindOfFileExt (goPathExt p) with
  | (MediaKind.mkAudio, _) => FileBucket.audio
  | (MediaKind.mkVideo, _) => FileBucket.video
  | _ =>
      match supportKindOfFileExt (goPathExt p) with
      | (MediaSupportKind.mskSubtitles, _) => FileBucket.subs
      | _ => FileBucket.other

/-- Collection addressed by a bucket (`other` addresses none and is
mapped to an empty collection; theorems about counts always exclude
it). -/
def Database.colFor (db : Database) : FileBucket → Collection
  | FileBucket.audio => db.audio
  | FileBucket.video => db.video
  | FileBucket.subs => db.subs
  | FileBucket.other => {}

/-- Records with path `q` in the bucket's collection. -/
def countIn (db : Database) (b : FileBucket) (q : String) : Nat :=
  pathCount (db.colFor b) q

/-- The path-count update applied by a query-then-insert step. -/
def oneIfZero (n : Nat) : Nat := if n = 0 then 1 else n

/-- Projection of a traversal-visit event. -/
def Event.sawOf : Event → Option (String × Nat)
  | .sawFile p d => some (p, d)
  | _ => none

/-- The matcher abstraction is path-preserving when it never adds or
removes records: it leaves the media collections untouched and keeps
every subtitle path count (the spec's matching step only associates
subtitles with candidate videos). -/
def matcherPreservesPaths (matcher : Matcher) : Prop :=
  ∀ db s i, (matcher db s i).db.audio = db.audio
    ∧ (matcher db s i).db.video = db.video
    ∧ ∀ p, pathCount (matcher db s i).db.subs p = pathCount db.subs p

/-- A matcher that finds no candidates and touches nothing. -/
def idMatcher : Matcher := fun db _ _ => { db := db, vids := [], err := none }

/-- A matcher whose matching step always fails. -/
def failMatcher : Matcher := fun db _ _ => { db := db, vids := [], err := some RC.rcInvalidFile }

/-- A database holding one orphan subtitle record. -/
def dbOneOrphan : Database :=
  { subs := { recs := [(0, Subtitles.toRecord {})], nextId := 1 } }

/-- Lookup in an ExtTable returns a name that really owns the extension. -/
theorem kindOfFileExt_found (t : ExtTable) (ext : String)
    (h : ∃ nl ∈ t, ext ∈ nl.2) :
    ∃ n l, (n, l) ∈ t ∧ ext ∈ l ∧ kindOfFileExt t ext = (n, true) := by
  induction t with
  | nil => simp at h
  | cons hd rest ih =>
      obtain ⟨n, l⟩ := hd
      by_cases hm : ext ∈ l
      · exact ⟨n, l, by simp, hm, by simp [kindOfFileExt, hm]⟩
      · have h' : ∃ nl ∈ rest, ext ∈ nl.2 := by
          rcases h with ⟨nl, hnl, hin⟩
          rcases List.mem_cons.mp hnl with rfl | hnl'
          · exact absurd hin hm
          · exact ⟨nl, hnl', hin⟩
        rcases ih h' with ⟨n', l', hmem, hin', heq⟩
        exact ⟨n', l', List.mem_cons_of_mem _ hmem, hin', by simp [kindOfFileExt, hm, heq]⟩

/-- Lookup in an ExtTable misses when no entry owns the extension. -/
theorem kindOfFileExt_not_found (t : ExtTable) (ext : String)
    (h : ∀ nl ∈ t, ext ∉ nl.2) :
    kindOfFileExt t ext = ("", false) := by
  induction t with
  | nil => rfl
  | cons hd rest ih =>
      obtain ⟨n, l⟩ := hd
      have hm : ext ∉ l := h (n, l) (by simp)
      have := ih (fun nl hnl => h nl (List.mem_cons_of_mem _ hnl))
      simp [kindOfFileExt, hm, this]

/-- C8: classification lookup searches the audio table before the video
table and returns the kind of the first table containing the lowercased
extension together with that table's type name for a matching entry;
an extension contained in no table yields the unknown kind paired with
the empty string (for media and for support lookups alike). -/
theorem classification_priority_lookup (ext : String) :
    ((∃ nl ∈ audioExtTable, goToLower ext ∈ nl.2) →
      ∃ n l, (n, l) ∈ audioExtTable ∧ goToLower ext ∈ l ∧
        mediaKindOfFileExt ext = (MediaKind.mkAudio, n))
    ∧ ((∀ nl ∈ audioExtTable, goToLower ext ∉ nl.2) →
      (∃ nl ∈ videoExtTable, goToLower ext ∈ nl.2) →
      ∃ n l, (n, l) ∈ videoExtTable ∧ goToLower ext ∈ l ∧
        mediaKindOfFileExt ext = (MediaKind.mkVideo, n))
    ∧ ((∀ nl ∈ audioExtTable, goToLower ext ∉ nl.2) →
      (∀ nl ∈ videoExtTable, goToLower ext ∉ nl.2) →
      mediaKindOfFileExt ext = (MediaKind.mkUnknown, ""))
    ∧ ((∃ nl ∈ subsExtTable, goToLower ext ∈ nl.2) →
      ∃ n l, (n, l) ∈ subsExtTable ∧ goToLower ext ∈ l ∧
        mediaSupportKindOfFileExt ext = (MediaSupportKind.mskSubtitles, n))
    ∧ ((∀ nl ∈ subsExtTable, goToLower ext ∉ nl.2) →
      mediaSupportKindOfFileExt ext = (MediaSupportKind.mskUnknown, "")) := by
  refine ⟨?_, ?_, ?_, ?_, ?_⟩
  · intro h
    rcases kindOfFileExt_found audioExtTable (goToLower ext) h with ⟨n, l, hmem, hin, heq⟩
    exact ⟨n, l, hmem, hin, by
      simp [mediaKindOfFileExt, mediaExtList, lookupKindTables, heq]⟩
  · intro ha h
    have hae := kindOfFileExt_not_found audioExtTable (goToLower ext) ha
    rcases kindOfFileExt_found videoExtTable (goToLower ext) h with ⟨n, l, hmem, hin, heq⟩
    exact ⟨n, l, hmem, hin, by
      simp [mediaKindOfFileExt, mediaExtList, lookupKindTables, hae, heq]⟩
  · intro ha hv
    have hae := kindOfFileExt_not_found audioExtTable (goToLower ext) ha
    have hve := kindOfFileExt_not_found videoExtTable (goToLower ext) hv
    simp [mediaKindOfFileExt, mediaExtList, lookupKindTables, hae, hve]
  · intro h
    rcases kindOfFileExt_found subsExtTable (goToLower ext) h with ⟨n, l, hmem, hin, heq⟩
    exact ⟨n, l, hmem, hin, by
      simp [mediaSupportKindOfFileExt, lookupSupportTables, heq]⟩
  · intro hs
    have hse := kindOfFileExt_not_found subsExtTable (goToLower ext) hs
    simp [mediaSupportKindOfFileExt, lookupSupportTables, hse]

/-- Witness for C8: concrete lookups through the theorem, for an audio
extension in mixed case and for a subtitle extension. -/
theorem classification_priority_lookup_witness :
    (∃ n l, (n, l) ∈ audioExtTable ∧ goToLower (".MP3") ∈ l ∧
      mediaKindOfFileExt (".MP3") = (MediaKind.mkAudio, n))
    ∧ (∃ n l, (n, l) ∈ subsExtTable ∧ goToLower (".srt") ∈ l ∧
      mediaSupportKindOfFileExt (".srt") = (MediaSupportKind.mskSubtitles, n)) :=
  ⟨(classification_priority_lookup (".MP3")).1
      ⟨("MPEG Layer III", [".mp3"]), by decide, by decide⟩,
    (classification_priority_lookup (".srt")).2.2.2.1
      ⟨("SubRip", [".srt"]), by decide, by decide⟩⟩

/-- C5 (refuted by the code): media.go's serialize/deserialize pair can
never round-trip.  `toRecord` stores `size` with dynamic type `int64`
(and `mode` as `os.FileMode`, times as `time.Time`), while `fromRecord`
asserts `v.(float64)` on `size` (and `v.(string)` on the time fields),
so deserializing the record produced by `toRecord` panics on the
`size` assertion for every audio and for every video entity, whatever
the receiver and the time-layout parser; no field equality can hold. -/
theorem record_roundtrip_always_panics (parse : String → Nat) (m0 : AudioMedia)
    (v0 : VideoMedia) (a : AudioMedia) (v : VideoMedia) :
    AudioMedia.fromRecord parse m0 (AudioMedia.toRecord a) = none
    ∧ VideoMedia.fromRecord parse v0 (VideoMedia.toRecord v) = none := by
  constructor <;> rfl

/-- C9: an increment that takes the busy count from 0 (to 1) resets the
UI-cycle counter, a decrement that takes it from 1 (to 0) resets it
again, and increments/decrements that do not cross zero leave the cycle
counter untouched. -/
theorem busy_cycle_reset_policy (s : BusyState) (h : s.busyCount < uint64Mod) :
    (s.busyCount = 0 → (s.inc).1.busyCycle = 0)
    ∧ (0 < s.busyCount → (s.inc).1.busyCycle = s.busyCycle)
    ∧ (s.busyCount = 1 → (s.dec).1.busyCycle = 0)
    ∧ (s.busyCount ≠ 1 → (s.dec).1.busyCycle = s.busyCycle) := by
  refine ⟨?_, ?_, ?_, ?_⟩ <;> intro hc
  · have h1 : (s.busyCount + 1) % uint64Mod = 1 := by rw [uint64Mod] at h ⊢; omega
    simp only [BusyState.inc]
    rw [if_pos h1]
    rfl
  · have hne : (s.busyCount + 1) % uint64Mod ≠ 1 := by rw [uint64Mod] at h ⊢; omega
    simp only [BusyState.inc]
    rw [if_neg hne]
  · have h0 : (s.busyCount + (uint64Mod - 1)) % uint64Mod = 0 := by
      rw [uint64Mod] at h ⊢; omega
    simp only [BusyState.dec]
    rw [if_pos h0]
    rfl
  · have hne : (s.busyCount + (uint64Mod - 1)) % uint64Mod ≠ 0 := by
      rw [uint64Mod] at h ⊢; omega
    simp only [BusyState.dec]
    rw [if_neg hne]

/-- Witness for C9 at the idle state: the 0-to-1 increment resets the
cycle counter, and a decrement at 0 (count not 1) leaves it untouched. -/
theorem busy_cycle_reset_policy_witness :
    (BusyState.inc { busyCycle := 7 }).1.busyCycle = 0
    ∧ (BusyState.dec { busyCycle := 7 }).1.busyCycle = ({ busyCycle := 7 } : BusyState).busyCycle :=
  ⟨(busy_cycle_reset_policy { busyCycle := 7 } (by norm_num [uint64Mod])).1 rfl,
    (busy_cycle_reset_policy { busyCycle := 7 } (by norm_num [uint64Mod])).2.2.2 (by decide)⟩

/-- C10: `dec()` at busy count 0 does not fail and does not saturate:
the stored count wraps to `2^64 - 1` (also the value returned and sent
on `changed`), and since the result is not 0 the cycle-counter reset is
not triggered. -/
theorem busy_dec_at_zero_wraps (s : BusyState) (h : s.busyCount = 0) :
    (s.dec).1.busyCount = 2 ^ 64 - 1
    ∧ (s.dec).1.busyCycle = s.busyCycle
    ∧ (s.dec).2 = 2 ^ 64 - 1 := by
  have h1 : (s.busyCount + (uint64Mod - 1)) % uint64Mod = 2 ^ 64 - 1 := by
    rw [uint64Mod]; omega
  have hne : (s.busyCount + (uint64Mod - 1)) % uint64Mod ≠ 0 := by
    rw [uint64Mod]; omega
  refine ⟨?_, ?_, ?_⟩ <;> simp only [BusyState.dec]
  · rw [if_neg hne]; exact h1
  · rw [if_neg hne]
  · exact h1

/-- Witness for C10 at a concrete state with a nonzero cycle counter. -/
theorem busy_dec_at_zero_wraps_witness :
    (BusyState.dec { busyCycle := 3 }).1.busyCount = 2 ^ 64 - 1
    ∧ (BusyState.dec { busyCycle := 3 }).1.busyCycle = ({ busyCycle := 3 } : BusyState).busyCycle
    ∧ (BusyState.dec { busyCycle := 3 }).2 = 2 ^ 64 - 1 :=
  busy_dec_at_zero_wraps { busyCycle := 3 } rfl

/-- Updating a zero count twice is the same as once. -/
theorem oneIfZero_idem (n : Nat) : oneIfZero (oneIfZero n) = oneIfZero n := by
  unfold oneIfZero
  split <;> simp_all

/-- An updated count is positive. -/
theorem oneIfZero_pos (n : Nat) : 0 < oneIfZero n := by
  unfold oneIfZero
  split <;> omega

/-- Inserting a record adds one to the path count of its own path and
leaves every other path count unchanged. -/
theorem pathCount_insert (c : Collection) (r : MediaRecord) (q : String) :
    pathCount (c.insert r).1 q =
      pathCount c q + (if recMatchesPath r q then 1 else 0) := by
  simp only [Collection.insert, pathCount, evalQueryPath, List.filter_append,
    List.map_append, List.length_append]
  split <;> simp_all

/-- The record serialized from an audio entity matches exactly its own
absolute path. -/
theorem recMatchesPath_audio (a : AudioMedia) (q : String) :
    recMatchesPath a.toRecord q = (a.media.absPath == q) := rfl

/-- The record serialized from a video entity matches exactly its own
absolute path. -/
theorem recMatchesPath_video (v : VideoMedia) (q : String) :
    recMatchesPath v.toRecord q = (v.media.absPath == q) := rfl

/-- The record serialized from a subtitles entity matches exactly its
own absolute path. -/
theorem recMatchesPath_subs (s : Subtitles) (q : String) :
    recMatchesPath s.toRecord q = (s.absPath == q) := rfl

theorem oneIfZero_of_pos {n : Nat} (h : 0 < n) : oneIfZero n = n := by
  unfold oneIfZero; split <;> omega

theorem seenFile_audio_iff (db : Database) (p : String) :
    seenFile db EntityClass.ecMedia 0 p = true ↔ 0 < pathCount db.audio p := by
  simp [seenFile]

theorem seenFile_video_iff (db : Database) (p : String) :
    seenFile db EntityClass.ecMedia 1 p = true ↔ 0 < pathCount db.video p := by
  simp [seenFile]

theorem seenFile_subs_iff (db : Database) (p : String) :
    seenFile db EntityClass.ecSupport 0 p = true ↔ 0 < pathCount db.subs p := by
  simp [seenFile]

theorem bucketOf_audio {p : String} {nm : String}
    (h : mediaKindOfFileExt (goPathExt p) = (MediaKind.mkAudio, nm)) :
    bucketOf p = FileBucket.audio := by
  simp [bucketOf, h]

theorem bucketOf_video {p : String} {nm : String}
    (h : mediaKindOfFileExt (goPathExt p) = (MediaKind.mkVideo, nm)) :
    bucketOf p = FileBucket.video := by
  simp [bucketOf, h]

theorem bucketOf_subs {p : String} {nm snm : String}
    (h : mediaKindOfFileExt (goPathExt p) = (MediaKind.mkUnknown, nm))
    (hs : supportKindOfFileExt (goPathExt p) = (MediaSupportKind.mskSubtitles, snm)) :
    bucketOf p = FileBucket.subs := by
  simp [bucketOf, h, hs]

theorem bucketOf_other {p : String} {nm snm : String}
    (h : mediaKindOfFileExt (goPathExt p) = (MediaKind.mkUnknown, nm))
    (hs : supportKindOfFileExt (goPathExt p) = (MediaSupportKind.mskUnknown, snm)) :
    bucketOf p = FileBucket.other := by
  simp [bucketOf, h, hs]

theorem recMatchesPath_newAudio (p rp ext extName name : String) (info : FileAttrs)
    (now : Nat) (q : String) :
    recMatchesPath ((newAudioMedia p rp ext extName name info now).toRecord) q = (p == q) := rfl

theorem recMatchesPath_newVideo (p rp ext extName name : String) (info : FileAttrs)
    (now : Nat) (q : String) :
    recMatchesPath ((newVideoMedia p rp ext extName name info now).toRecord) q = (p == q) := rfl

theorem recMatchesPath_newSubs (p rp ext extName : String) (info : FileAttrs) (q : String) :
    recMatchesPath ((newSubtitles p rp ext extName info).toRecord) q = (p == q) := rfl

theorem scanFile_count (cfg : ScanCfg) (db : Database) (name : String) (info : FileAttrs)
    (absPath : String) (depth : Nat) (b : FileBucket) (hb : b ≠ FileBucket.other) (q : String) :
    countIn (scanFile cfg db name info absPath depth).db b q =
      if q = absPath ∧ bucketOf q = b then oneIfZero (countIn db b q) else countIn db b q := by
  rcases hk : mediaKindOfFileExt (goPathExt absPath) with ⟨k, nm⟩
  cases k with
  | mkAudio =>
      have hba : bucketOf absPath = FileBucket.audio := bucketOf_audio hk
      by_cases hs : seenFile db EntityClass.ecMedia 0 absPath = true
      · have hpos : 0 < pathCount db.audio absPath := (seenFile_audio_iff db absPath).mp hs
        simp only [scanFile, hk, hs, if_true]
        split
        · rename_i h
          obtain ⟨rfl, hbq⟩ := h
          rw [← hbq, hba]
          exact (oneIfZero_of_pos hpos).symm
        · rfl
      · have hzero : pathCount db.audio absPath = 0 := by
          have := (seenFile_audio_iff db absPath).not.mp hs
          omega
        simp only [Bool.not_eq_true] at hs
        simp only [scanFile, hk, hs, Bool.false_eq_true, if_false]
        cases b with
        | audio =>
            show pathCount ((db.audio.insert _).1) q = _
            rw [pathCount_insert, recMatchesPath_newAudio]
            by_cases hq : q = absPath
            · subst hq
              rw [beq_self_eq_true]
              rw [if_pos (⟨rfl, hba⟩ : q = q ∧ bucketOf q = FileBucket.audio)]
              simp [hzero, oneIfZero, countIn, Database.colFor]
            · have hne : (absPath == q) = false := beq_eq_false_iff_ne.mpr (fun he => hq he.symm)
              rw [hne]
              simp only [Bool.false_eq_true, if_false, Nat.add_zero]
              rw [if_neg (show ¬(q = absPath ∧ bucketOf q = FileBucket.audio) from fun h => hq h.1)]
              rfl
        | video =>
            show pathCount db.video q = _
            rw [if_neg (by rintro ⟨rfl, hbq⟩; rw [hba] at hbq; cases hbq)]
            rfl
        | subs =>
            show pathCount db.subs q = _
            rw [if_neg (by rintro ⟨rfl, hbq⟩; rw [hba] at hbq; cases hbq)]
            rfl
        | other => exact absurd rfl hb
  | mkVideo =>
      have hba : bucketOf absPath = FileBucket.video := bucketOf_video hk
      by_cases hs : seenFile db EntityClass.ecMedia 1 absPath = true
      · have hpos : 0 < pathCount db.video absPath := (seenFile_video_iff db absPath).mp hs
        simp only [scanFile, hk, hs, if_true]
        split
        · rename_i h
          obtain ⟨rfl, hbq⟩ := h
          rw [← hbq, hba]
          exact (oneIfZero_of_pos hpos).symm
        · rfl
      · have hzero : pathCount db.video absPath = 0 := by
          have := (seenFile_video_iff db absPath).not.mp hs
          omega
        simp only [Bool.not_eq_true] at hs
        simp only [scanFile, hk, hs, Bool.false_eq_true, if_false]
        cases b with
        | video =>
            show pathCount ((db.video.insert _).1) q = _
            rw [pathCount_insert, recMatchesPath_newVideo]
            by_cases hq : q = absPath
            · subst hq
              rw [beq_self_eq_true]
              rw [if_pos (⟨rfl, hba⟩ : q = q ∧ bucketOf q = FileBucket.video)]
              simp [hzero, oneIfZero, countIn, Database.colFor]
            · have hne : (absPath == q) = false := beq_eq_false_iff_ne.mpr (fun he => hq he.symm)
              rw [hne]
              simp only [Bool.false_eq_true, if_false, Nat.add_zero]
              rw [if_neg (show ¬(q = absPath ∧ bucketOf q = FileBucket.video) from fun h => hq h.1)]
              rfl
        | audio =>
            show pathCount db.audio q = _
            rw [if_neg (by rintro ⟨rfl, hbq⟩; rw [hba] at hbq; cases hbq)]
            rfl
        | subs =>
            show pathCount db.subs q = _
            rw [if_neg (by rintro ⟨rfl, hbq⟩; rw [hba] at hbq; cases hbq)]
            rfl
        | other => exact absurd rfl hb
  | mkUnknown =>
      rcases hsup : supportKindOfFileExt (goPathExt absPath) with ⟨sk, snm⟩
      cases sk with
      | mskSubtitles =>
          have hba : bucketOf absPath = FileBucket.subs := bucketOf_subs hk hsup
          by_cases hs : seenFile db EntityClass.ecSupport 0 absPath = true
          · have hpos : 0 < pathCount db.subs absPath := (seenFile_subs_iff db absPath).mp hs
            simp only [scanFile, hk, hsup, hs, if_true]
            split
            · rename_i h
              obtain ⟨rfl, hbq⟩ := h
              rw [← hbq, hba]
              exact (oneIfZero_of_pos hpos).symm
            · rfl
          · have hzero : pathCount db.subs absPath = 0 := by
              have := (seenFile_subs_iff db absPath).not.mp hs
              omega
            simp only [Bool.not_eq_true] at hs
            simp only [scanFile, hk, hsup, hs, Bool.false_eq_true, if_false]
            cases b with
            | subs =>
                show pathCount ((db.subs.insert _).1) q = _
                rw [pathCount_insert, recMatchesPath_newSubs]
                by_cases hq : q = absPath
                · subst hq
                  rw [beq_self_eq_true]
                  rw [if_pos (⟨rfl, hba⟩ : q = q ∧ bucketOf q = FileBucket.subs)]
                  simp [hzero, oneIfZero, countIn, Database.colFor]
                · have hne : (absPath == q) = false := beq_eq_false_iff_ne.mpr (fun he => hq he.symm)
                  rw [hne]
                  simp only [Bool.false_eq_true, if_false, Nat.add_zero]
                  rw [if_neg (show ¬(q = absPath ∧ bucketOf q = FileBucket.subs) from fun h => hq h.1)]
                  rfl
            | audio =>
                show pathCount db.audio q = _
                rw [if_neg (by rintro ⟨rfl, hbq⟩; rw [hba] at hbq; cases hbq)]
                rfl
            | video =>
                show pathCount db.video q = _
                rw [if_neg (by rintro ⟨rfl, hbq⟩; rw [hba] at hbq; cases hbq)]
                rfl
            | other => exact absurd rfl hb
      | mskUnknown =>
          have hba : bucketOf absPath = FileBucket.other := bucketOf_other hk hsup
          simp only [scanFile, hk, hsup]
          rw [if_neg (by rintro ⟨rfl, hbq⟩; rw [hba] at hbq; exact hb hbq.symm)]

mutual

theorem scanDive_count (cfg : ScanCfg) (db : Database) (node : FsNode) (absPath : String)
    (depth : Nat) (b : FileBucket) (hb : b ≠ FileBucket.other) (q : String) :
    countIn (scanDive cfg db node absPath depth).db b q =
      if q ∈ reachPaths cfg.maxDepth node absPath depth ∧ bucketOf q = b
      then oneIfZero (countIn db b q) else countIn db b q := by
  cases node with
  | file name info =>
      have h := scanFile_count cfg db name info absPath depth b hb q
      simp only [scanDive]
      rw [h]
      simp [reachPaths, reachFiles]
  | symlink nm => simp [scanDive, reachPaths, reachFiles]
  | special nm => simp [scanDive, reachPaths, reachFiles]
  | dir nm entries =>
      by_cases hd : depthUnlimited ≠ cfg.maxDepth ∧ depth > cfg.maxDepth
      · simp [scanDive, reachPaths, reachFiles, hd]
      · simp only [scanDive, reachPaths, reachFiles, hd, if_false]
        exact scanDiveEntries_count cfg db entries absPath depth b hb q

theorem scanDiveEntries_count (cfg : ScanCfg) (db : Database) (entries : List FsNode)
    (parent : String) (depth : Nat) (b : FileBucket) (hb : b ≠ FileBucket.other) (q : String) :
    countIn (scanDiveEntries cfg db entries parent depth).db b q =
      if q ∈ (reachFilesEntries cfg.maxDepth entries parent depth).map Prod.fst ∧ bucketOf q = b
      then oneIfZero (countIn db b q) else countIn db b q := by
  cases entries with
  | nil => simp [scanDiveEntries, reachFilesEntries]
  | cons e rest =>
      have h1 := scanDive_count cfg db e (pathJoin parent e.name) (depth + 1) b hb q
      have h2 := scanDiveEntries_count cfg
        (scanDive cfg db e (pathJoin parent e.name) (depth + 1)).db rest parent depth b hb q
      simp only [scanDiveEntries]
      rw [h2, h1]
      simp only [reachPaths] at *
      simp only [reachFilesEntries, List.map_append, List.mem_append]
      by_cases hbq : bucketOf q = b
      · by_cases m1 : q ∈ (reachFiles cfg.maxDepth e (pathJoin parent e.name) (depth + 1)).map Prod.fst
          <;> by_cases m2 : q ∈ (reachFilesEntries cfg.maxDepth rest parent depth).map Prod.fst
          <;> simp [m1, m2, hbq, oneIfZero_idem]
      · simp [hbq]

end

theorem scanFile_seen_noop (cfg : ScanCfg) (db : Database) (name : String) (info : FileAttrs)
    (absPath : String) (depth : Nat)
    (h : bucketOf absPath ≠ FileBucket.other → 0 < countIn db (bucketOf absPath) absPath) :
    (scanFile cfg db name info absPath depth).db = db
    ∧ (scanFile cfg db name info absPath depth).evs.filter Event.isInserted = [] := by
  rcases hk : mediaKindOfFileExt (goPathExt absPath) with ⟨k, nm⟩
  cases k with
  | mkAudio =>
      have hba : bucketOf absPath = FileBucket.audio := bucketOf_audio hk
      have hpos : 0 < pathCount db.audio absPath := by
        have := h (by rw [hba]; intro hx; cases hx)
        rw [hba] at this
        exact this
      have hs : seenFile db EntityClass.ecMedia 0 absPath = true :=
        (seenFile_audio_iff db absPath).mpr hpos
      simp [scanFile, hk, hs, Event.isInserted]
  | mkVideo =>
      have hba : bucketOf absPath = FileBucket.video := bucketOf_video hk
      have hpos : 0 < pathCount db.video absPath := by
        have := h (by rw [hba]; intro hx; cases hx)
        rw [hba] at this
        exact this
      have hs : seenFile db EntityClass.ecMedia 1 absPath = true :=
        (seenFile_video_iff db absPath).mpr hpos
      simp [scanFile, hk, hs, Event.isInserted]
  | mkUnknown =>
      rcases hsup : supportKindOfFileExt (goPathExt absPath) with ⟨sk, snm⟩
      cases sk with
      | mskSubtitles =>
          have hba : bucketOf absPath = FileBucket.subs := bucketOf_subs hk hsup
          have hpos : 0 < pathCount db.subs absPath := by
            have := h (by rw [hba]; intro hx; cases hx)
            rw [hba] at this
            exact this
          have hs : seenFile db EntityClass.ecSupport 0 absPath = true :=
            (seenFile_subs_iff db absPath).mpr hpos
          simp [scanFile, hk, hsup, hs, Event.isInserted]
      | mskUnknown =>
          simp [scanFile, hk, hsup, Event.isInserted]

mutual

theorem scanDive_seen_noop (cfg : ScanCfg) (db : Database) (node : FsNode) (absPath : String)
    (depth : Nat)
    (h : ∀ p ∈ reachPaths cfg.maxDepth node absPath depth,
      bucketOf p ≠ FileBucket.other → 0 < countIn db (bucketOf p) p) :
    (scanDive cfg db node absPath depth).db = db
    ∧ (scanDive cfg db node absPath depth).evs.filter Event.isInserted = [] := by
  cases node with
  | file name info =>
      have hf := scanFile_seen_noop cfg db name info absPath depth
        (h absPath (by simp [reachPaths, reachFiles]))
      simpa [scanDive] using hf
  | symlink nm => simp [scanDive, Event.isInserted]
  | special nm => simp [scanDive, Event.isInserted]
  | dir nm entries =>
      by_cases hd : depthUnlimited ≠ cfg.maxDepth ∧ depth > cfg.maxDepth
      · simp [scanDive, hd, Event.isInserted]
      · have he := scanDiveEntries_seen_noop cfg db entries absPath depth
          (by
            intro p hp hbp
            exact h p (by simpa [reachPaths, reachFiles, hd] using hp) hbp)
        simpa [scanDive, hd] using he

theorem scanDiveEntries_seen_noop (cfg : ScanCfg) (db : Database) (entries : List FsNode)
    (parent : String) (depth : Nat)
    (h : ∀ p ∈ (reachFilesEntries cfg.maxDepth entries parent depth).map Prod.fst,
      bucketOf p ≠ FileBucket.other → 0 < countIn db (bucketOf p) p) :
    (scanDiveEntries cfg db entries parent depth).db = db
    ∧ (scanDiveEntries cfg db entries parent depth).evs.filter Event.isInserted = [] := by
  cases entries with
  | nil => simp [scanDiveEntries]
  | cons e rest =>
      have h1 := scanDive_seen_noop cfg db e (pathJoin parent e.name) (depth + 1)
        (by
          intro p hp hbp
          refine h p ?_ hbp
          simp only [reachFilesEntries, List.map_append, List.mem_append]
          exact Or.inl (by simpa [reachPaths] using hp))
      have h2 := scanDiveEntries_seen_noop cfg (scanDive cfg db e (pathJoin parent e.name) (depth + 1)).db
        rest parent depth
        (by
          intro p hp hbp
          rw [h1.1]
          refine h p ?_ hbp
          simp only [reachFilesEntries, List.map_append, List.mem_append]
          exact Or.inr hp)
      refine ⟨?_, ?_⟩
      · simp only [scanDiveEntries]
        rw [h2.1, h1.1]
      · simp only [scanDiveEntries, List.filter_append]
        rw [h1.2, h2.2]
        rfl

end

theorem scanFile_saw (cfg : ScanCfg) (db : Database) (name : String) (info : FileAttrs)
    (absPath : String) (depth : Nat) :
    (scanFile cfg db name info absPath depth).evs.filterMap Event.sawOf = [(absPath, depth)] := by
  rcases hk : mediaKindOfFileExt (goPathExt absPath) with ⟨k, nm⟩
  cases k with
  | mkAudio =>
      by_cases hs : seenFile db EntityClass.ecMedia 0 absPath = true
      · simp [scanFile, hk, hs, Event.sawOf]
      · simp only [Bool.not_eq_true] at hs
        simp [scanFile, hk, hs, Event.sawOf]
  | mkVideo =>
      by_cases hs : seenFile db EntityClass.ecMedia 1 absPath = true
      · simp [scanFile, hk, hs, Event.sawOf]
      · simp only [Bool.not_eq_true] at hs
        simp [scanFile, hk, hs, Event.sawOf]
  | mkUnknown =>
      rcases hsup : supportKindOfFileExt (goPathExt absPath) with ⟨sk, snm⟩
      cases sk with
      | mskSubtitles =>
          by_cases hs : seenFile db EntityClass.ecSupport 0 absPath = true
          · simp [scanFile, hk, hsup, hs, Event.sawOf]
          · simp only [Bool.not_eq_true] at hs
            simp [scanFile, hk, hsup, hs, Event.sawOf]
      | mskUnknown => simp [scanFile, hk, hsup, Event.sawOf]

mutual

theorem scanDive_saw (cfg : ScanCfg) (db : Database) (node : FsNode) (absPath : String)
    (depth : Nat) :
    (scanDive cfg db node absPath depth).evs.filterMap Event.sawOf =
      reachFiles cfg.maxDepth node absPath depth := by
  cases node with
  | file name info =>
      simpa [scanDive, reachFiles] using scanFile_saw cfg db name info absPath depth
  | symlink nm => simp [scanDive, reachFiles, Event.sawOf]
  | special nm => simp [scanDive, reachFiles, Event.sawOf]
  | dir nm entries =>
      by_cases hd : depthUnlimited ≠ cfg.maxDepth ∧ depth > cfg.maxDepth
      · simp [scanDive, reachFiles, hd, Event.sawOf]
      · simp only [scanDive, reachFiles, hd, if_false]
        exact scanDiveEntries_saw cfg db entries absPath depth

theorem scanDiveEntries_saw (cfg : ScanCfg) (db : Database) (entries : List FsNode)
    (parent : String) (depth : Nat) :
    (scanDiveEntries cfg db entries parent depth).evs.filterMap Event.sawOf =
      reachFilesEntries cfg.maxDepth entries parent depth := by
  cases entries with
  | nil => simp [scanDiveEntries, reachFilesEntries]
  | cons e rest =>
      have h1 := scanDive_saw cfg db e (pathJoin parent e.name) (depth + 1)
      have h2 := scanDiveEntries_saw cfg (scanDive cfg db e (pathJoin parent e.name) (depth + 1)).db
        rest parent depth
      simp only [scanDiveEntries, reachFilesEntries, List.filterMap_append]
      rw [h1, h2]

end

mutual

theorem reachFiles_depth_ge (maxDepth : Nat) (node : FsNode) (absPath : String) (depth : Nat) :
    ∀ qk ∈ reachFiles maxDepth node absPath depth, depth ≤ qk.2 := by
  cases node with
  | file name info => simp [reachFiles]
  | symlink nm => simp [reachFiles]
  | special nm => simp [reachFiles]
  | dir nm entries =>
      intro qk hqk
      by_cases hd : depthUnlimited ≠ maxDepth ∧ depth > maxDepth
      · simp [reachFiles, hd] at hqk
      · simp only [reachFiles, hd, if_false] at hqk
        have := reachFilesEntries_depth_ge maxDepth entries absPath depth qk hqk
        omega

theorem reachFilesEntries_depth_ge (maxDepth : Nat) (entries : List FsNode) (parent : String)
    (depth : Nat) :
    ∀ qk ∈ reachFilesEntries maxDepth entries parent depth, depth + 1 ≤ qk.2 := by
  cases entries with
  | nil => simp [reachFilesEntries]
  | cons e rest =>
      intro qk hqk
      simp only [reachFilesEntries, List.mem_append] at hqk
      rcases hqk with h | h
      · exact reachFiles_depth_ge maxDepth e (pathJoin parent e.name) (depth + 1) qk h
      · exact reachFilesEntries_depth_ge maxDepth rest parent depth qk h

end

mutual

theorem reachFiles_depth_le (maxDepth : Nat) (node : FsNode) (absPath : String) (depth : Nat)
    (hd : maxDepth ≠ 0) (hdep : depth ≤ maxDepth + 1) :
    ∀ qk ∈ reachFiles maxDepth node absPath depth, qk.2 ≤ maxDepth + 1 := by
  cases node with
  | file name info =>
      intro qk hqk
      simp [reachFiles] at hqk
      rw [hqk]
      exact hdep
  | symlink nm => simp [reachFiles]
  | special nm => simp [reachFiles]
  | dir nm entries =>
      intro qk hqk
      by_cases hlim : depthUnlimited ≠ maxDepth ∧ depth > maxDepth
      · simp [reachFiles, hlim] at hqk
      · simp only [reachFiles, hlim, if_false] at hqk
        have hdep' : depth + 1 ≤ maxDepth + 1 := by
          simp only [depthUnlimited, not_and, not_lt] at hlim
          have := hlim (fun he => hd he.symm)
          omega
        exact reachFilesEntries_depth_le maxDepth entries absPath depth hd hdep' qk hqk

theorem reachFilesEntries_depth_le (maxDepth : Nat) (entries : List FsNode) (parent : String)
    (depth : Nat) (hd : maxDepth ≠ 0) (hdep : depth + 1 ≤ maxDepth + 1) :
    ∀ qk ∈ reachFilesEntries maxDepth entries parent depth, qk.2 ≤ maxDepth + 1 := by
  cases entries with
  | nil => simp [reachFilesEntries]
  | cons e rest =>
      intro qk hqk
      simp only [reachFilesEntries, List.mem_append] at hqk
      rcases hqk with h | h
      · exact reachFiles_depth_le maxDepth e (pathJoin parent e.name) (depth + 1) hd hdep qk h
      · exact reachFilesEntries_depth_le maxDepth rest parent depth hd hdep qk h

end

mutual

theorem reachFiles_complete (maxDepth : Nat) (node : FsNode) (absPath : String) (depth : Nat)
    (hd : maxDepth ≠ 0) :
    ∀ qk ∈ reachFiles 0 node absPath depth, qk.2 ≤ maxDepth + 1 →
      qk ∈ reachFiles maxDepth node absPath depth := by
  cases node with
  | file name info => simp [reachFiles]
  | symlink nm => simp [reachFiles]
  | special nm => simp [reachFiles]
  | dir nm entries =>
      intro qk hqk hle
      simp only [reachFiles, show ¬(depthUnlimited ≠ (0 : Nat) ∧ depth > 0) by simp [depthUnlimited],
        if_false] at hqk
      by_cases hlim : depthUnlimited ≠ maxDepth ∧ depth > maxDepth
      · have hge := reachFilesEntries_depth_ge 0 entries absPath depth qk hqk
        omega
      · simp only [reachFiles, hlim, if_false]
        exact reachFilesEntries_complete maxDepth entries absPath depth hd qk hqk hle

theorem reachFilesEntries_complete (maxDepth : Nat) (entries : List FsNode) (parent : String)
    (depth : Nat) (hd : maxDepth ≠ 0) :
    ∀ qk ∈ reachFilesEntries 0 entries parent depth, qk.2 ≤ maxDepth + 1 →
      qk ∈ reachFilesEntries maxDepth entries parent depth := by
  cases entries with
  | nil => simp [reachFilesEntries]
  | cons e rest =>
      intro qk hqk hle
      simp only [reachFilesEntries, List.mem_append] at hqk ⊢
      rcases hqk with h | h
      · exact Or.inl (reachFiles_complete maxDepth e (pathJoin parent e.name) (depth + 1) hd qk h hle)
      · exact Or.inr (reachFilesEntries_complete maxDepth rest parent depth hd qk h hle)

end

theorem recandidateLoop_preserves (matcher : Matcher) (hm : matcherPreservesPaths matcher)
    (os : List RecordID) :
    ∀ db b, b ≠ FileBucket.other → ∀ q,
      countIn (recandidateLoop matcher db os).1 b q = countIn db b q := by
  induction os with
  | nil => intro db b hb q; rfl
  | cons o rest ih =>
      intro db b hb q
      obtain ⟨ha, hv, hsgl⟩ := hm db o.entity o.id
      have hstep : ∀ b', b' ≠ FileBucket.other →
          countIn (matcher db o.entity o.id).db b' q = countIn db b' q := by
        intro b' hb'
        cases b' with
        | audio =>
            show pathCount (matcher db o.entity o.id).db.audio q = pathCount db.audio q
            rw [ha]
        | video =>
            show pathCount (matcher db o.entity o.id).db.video q = pathCount db.video q
            rw [hv]
        | subs => exact hsgl q
        | other => exact absurd rfl hb'
      simp only [recandidateLoop]
      rcases he : (matcher db o.entity o.id).err with _ | e
      · rw [ih (matcher db o.entity o.id).db b hb q]
        exact hstep b hb
      · exact hstep b hb

theorem recandidateSubtitles_preserves (matcher : Matcher) (hm : matcherPreservesPaths matcher)
    (db : Database) (force : Bool) (b : FileBucket) (hb : b ≠ FileBucket.other) (q : String) :
    countIn (recandidateSubtitles matcher db force).1 b q = countIn db b q := by
  simp only [recandidateSubtitles]
  split
  · exact recandidateLoop_preserves matcher hm _ db b hb q
  · rfl

theorem recandidateLoop_evs (matcher : Matcher) (os : List RecordID) :
    ∀ db, ∃ ps : List String, (recandidateLoop matcher db os).2.1 = ps.map Event.matchAttempt := by
  induction os with
  | nil => intro db; exact ⟨[], rfl⟩
  | cons o rest ih =>
      intro db
      simp only [recandidateLoop]
      rcases he : (matcher db o.entity o.id).err with _ | e
      · obtain ⟨ps, hps⟩ := ih ((matcher db o.entity o.id).db)
        exact ⟨o.entity.absPath :: ps, by simp [hps]⟩
      · exact ⟨[o.entity.absPath], rfl⟩

theorem recandidateSubtitles_evs (matcher : Matcher) (db : Database) (force : Bool) :
    ∃ ps : List String, (recandidateSubtitles matcher db force).2.1 = ps.map Event.matchAttempt := by
  simp only [recandidateSubtitles]
  split
  · exact recandidateLoop_evs matcher _ db
  · exact ⟨[], rfl⟩

theorem matchAttempts_no_insert (ps : List String) :
    (ps.map Event.matchAttempt).filter Event.isInserted = [] := by
  induction ps with
  | nil => rfl
  | cons p rest ih => simp [Event.isInserted, ih]

theorem scan_admitted_parts (cli : Bool) (matcher : Matcher) (fs : FsNode) (t1 t2 t3 : Nat)
    (l : Library) (busy : BusyState) (h : l.scanStartCount < maxLibraryScanners) :
    (Library.scan cli matcher fs t1 t2 t3 l busy).lib.db =
      (match (scanDive { maxDepth := l.maxDepth, rootPath := l.absPath, now := t3 } l.db fs l.absPath 1).err with
        | none => (recandidateSubtitles matcher
            (scanDive { maxDepth := l.maxDepth, rootPath := l.absPath, now := t3 } l.db fs l.absPath 1).db false).1
        | some _ => (scanDive { maxDepth := l.maxDepth, rootPath := l.absPath, now := t3 } l.db fs l.absPath 1).db)
    ∧ (Library.scan cli matcher fs t1 t2 t3 l busy).lib.scanStartCount = l.scanStartCount + 1 - 1
    ∧ (Library.scan cli matcher fs t1 t2 t3 l busy).lib.absPath = l.absPath
    ∧ (Library.scan cli matcher fs t1 t2 t3 l busy).lib.maxDepth = l.maxDepth
    ∧ (Library.scan cli matcher fs t1 t2 t3 l busy).err =
        (scanDive { maxDepth := l.maxDepth, rootPath := l.absPath, now := t3 } l.db fs l.absPath 1).err
    ∧ (Library.scan cli matcher fs t1 t2 t3 l busy).evs =
        (if cli then [] else [Event.busyInc])
          ++ (scanDive { maxDepth := l.maxDepth, rootPath := l.absPath, now := t3 } l.db fs l.absPath 1).evs
          ++ (match (scanDive { maxDepth := l.maxDepth, rootPath := l.absPath, now := t3 } l.db fs l.absPath 1).err with
              | none => (recandidateSubtitles matcher
                  (scanDive { maxDepth := l.maxDepth, rootPath := l.absPath, now := t3 } l.db fs l.absPath 1).db false).2.1
              | some _ => [])
          ++ (if cli then [] else [Event.busyDec]) := by
  refine ⟨?_, ?_, ?_, ?_, ?_, ?_⟩ <;> simp only [Library.scan, if_pos h]

theorem oneIfZero_of_le_one {n : Nat} (h : n ≤ 1) : oneIfZero n = 1 := by
  unfold oneIfZero
  split <;> omega

/-- C3: for a Library scanned with unlimited depth (`maxDepth = 0`,
the value the orchestrator always passes), starting from a database
with at most one record per path in each collection, one completed
`scan()` leaves exactly one record whose indexed path field equals the
file's absolute path, in the (class, kind) collection of every regular
file under the root whose extension matches a classification table
(`reachPaths 0` enumerates every regular file of the tree); and a
second `scan()` of the unchanged tree inserts zero new records.  The
abstract subtitle matcher is assumed path-preserving (it only edits
associations, per the spec). -/
theorem scan_indexes_each_matched_file_once
    (cli : Bool) (matcher : Matcher) (fs : FsNode) (t1 t2 t3 t4 t5 t6 : Nat)
    (l : Library) (busy : BusyState)
    (hgate : l.scanStartCount = 0)
    (hdepth : l.maxDepth = 0)
    (hmatch : matcherPreservesPaths matcher)
    (hinv : ∀ b, b ≠ FileBucket.other → ∀ q, countIn l.db b q ≤ 1) :
    (∀ q ∈ reachPaths 0 fs l.absPath 1, bucketOf q ≠ FileBucket.other →
      countIn (Library.scan cli matcher fs t1 t2 t3 l busy).lib.db (bucketOf q) q = 1)
    ∧ (Library.scan cli matcher fs t4 t5 t6
        (Library.scan cli matcher fs t1 t2 t3 l busy).lib
        (Library.scan cli matcher fs t1 t2 t3 l busy).busy).evs.filter Event.isInserted = [] := by
  have hlt : l.scanStartCount < maxLibraryScanners := by
    rw [hgate, maxLibraryScanners]; omega
  obtain ⟨hdb, hcnt, habs, hmax, herr, hevs⟩ :=
    scan_admitted_parts cli matcher fs t1 t2 t3 l busy hlt
  have hdb1 : ∀ b, b ≠ FileBucket.other → ∀ q,
      countIn (Library.scan cli matcher fs t1 t2 t3 l busy).lib.db b q =
        if q ∈ reachPaths l.maxDepth fs l.absPath 1 ∧ bucketOf q = b
        then oneIfZero (countIn l.db b q) else countIn l.db b q := by
    intro b hb q
    rw [hdb]
    rcases he : (scanDive { maxDepth := l.maxDepth, rootPath := l.absPath, now := t3 }
        l.db fs l.absPath 1).err with _ | e
    · simp only [he]
      rw [recandidateSubtitles_preserves matcher hmatch _ false b hb q]
      exact scanDive_count { maxDepth := l.maxDepth, rootPath := l.absPath, now := t3 }
        l.db fs l.absPath 1 b hb q
    · simp only [he]
      exact scanDive_count { maxDepth := l.maxDepth, rootPath := l.absPath, now := t3 }
        l.db fs l.absPath 1 b hb q
  have part1 : ∀ q ∈ reachPaths 0 fs l.absPath 1, bucketOf q ≠ FileBucket.other →
      countIn (Library.scan cli matcher fs t1 t2 t3 l busy).lib.db (bucketOf q) q = 1 := by
    intro q hq hbq
    rw [hdb1 (bucketOf q) hbq q,
      if_pos (⟨by rw [hdepth]; exact hq, rfl⟩ :
        q ∈ reachPaths l.maxDepth fs l.absPath 1 ∧ bucketOf q = bucketOf q)]
    exact oneIfZero_of_le_one (hinv (bucketOf q) hbq q)
  refine ⟨part1, ?_⟩
  have hgate2 : (Library.scan cli matcher fs t1 t2 t3 l busy).lib.scanStartCount <
      maxLibraryScanners := by
    rw [hcnt, hgate, maxLibraryScanners]
    omega
  obtain ⟨hdb', hcnt', habs', hmax', herr', hevs'⟩ :=
    scan_admitted_parts cli matcher fs t4 t5 t6
      (Library.scan cli matcher fs t1 t2 t3 l busy).lib
      (Library.scan cli matcher fs t1 t2 t3 l busy).busy hgate2
  rw [hevs', habs, hmax]
  have hnoop := scanDive_seen_noop { maxDepth := l.maxDepth, rootPath := l.absPath, now := t6 }
      (Library.scan cli matcher fs t1 t2 t3 l busy).lib.db fs l.absPath 1
      (by
        intro p hp hbp
        have h1 : countIn (Library.scan cli matcher fs t1 t2 t3 l busy).lib.db (bucketOf p) p = 1 :=
          part1 p (by rwa [hdepth] at hp) hbp
        omega)
  have hA : (if cli then ([] : List Event) else [Event.busyInc]).filter Event.isInserted = [] := by
    cases cli <;> simp [Event.isInserted]
  have hD : (if cli then ([] : List Event) else [Event.busyDec]).filter Event.isInserted = [] := by
    cases cli <;> simp [Event.isInserted]
  have hC : (match (scanDive { maxDepth := l.maxDepth, rootPath := l.absPath, now := t6 }
        (Library.scan cli matcher fs t1 t2 t3 l busy).lib.db fs l.absPath 1).err with
      | none => (recandidateSubtitles matcher
          (scanDive { maxDepth := l.maxDepth, rootPath := l.absPath, now := t6 }
            (Library.scan cli matcher fs t1 t2 t3 l busy).lib.db fs l.absPath 1).db false).2.1
      | some _ => ([] : List Event)).filter Event.isInserted = [] := by
    rcases he2 : (scanDive { maxDepth := l.maxDepth, rootPath := l.absPath, now := t6 }
        (Library.scan cli matcher fs t1 t2 t3 l busy).lib.db fs l.absPath 1).err with _ | e
    · simp only [he2]
      obtain ⟨ps, hps⟩ := recandidateSubtitles_evs matcher
        (scanDive { maxDepth := l.maxDepth, rootPath := l.absPath, now := t6 }
          (Library.scan cli matcher fs t1 t2 t3 l busy).lib.db fs l.absPath 1).db false
      rw [hps]
      exact matchAttempts_no_insert ps
    · simp only [he2]
      rfl
  simp only [List.filter_append, hA, hD, hC, hnoop.2, List.append_nil, List.nil_append]

theorem scanFile_no_busy (cfg : ScanCfg) (db : Database) (name : String) (info : FileAttrs)
    (absPath : String) (depth : Nat) :
    (scanFile cfg db name info absPath depth).evs.count Event.busyInc = 0
    ∧ (scanFile cfg db name info absPath depth).evs.count Event.busyDec = 0 := by
  rcases hk : mediaKindOfFileExt (goPathExt absPath) with ⟨k, nm⟩
  cases k with
  | mkAudio =>
      by_cases hs : seenFile db EntityClass.ecMedia 0 absPath = true
      · simp [scanFile, hk, hs]
      · simp only [Bool.not_eq_true] at hs
        simp [scanFile, hk, hs]
  | mkVideo =>
      by_cases hs : seenFile db EntityClass.ecMedia 1 absPath = true
      · simp [scanFile, hk, hs]
      · simp only [Bool.not_eq_true] at hs
        simp [scanFile, hk, hs]
  | mkUnknown =>
      rcases hsup : supportKindOfFileExt (goPathExt absPath) with ⟨sk, snm⟩
      cases sk with
      | mskSubtitles =>
          by_cases hs : seenFile db EntityClass.ecSupport 0 absPath = true
          · simp [scanFile, hk, hsup, hs]
          · simp only [Bool.not_eq_true] at hs
            simp [scanFile, hk, hsup, hs]
      | mskUnknown => simp [scanFile, hk, hsup]

mutual

theorem scanDive_no_busy (cfg : ScanCfg) (db : Database) (node : FsNode) (absPath : String)
    (depth : Nat) :
    (scanDive cfg db node absPath depth).evs.count Event.busyInc = 0
    ∧ (scanDive cfg db node absPath depth).evs.count Event.busyDec = 0 := by
  cases node with
  | file name info =>
      simpa [scanDive] using scanFile_no_busy cfg db name info absPath depth
  | symlink nm => simp [scanDive]
  | special nm => simp [scanDive]
  | dir nm entries =>
      by_cases hd : depthUnlimited ≠ cfg.maxDepth ∧ depth > cfg.maxDepth
      · simp [scanDive, hd]
      · simp only [scanDive, hd, if_false]
        exact scanDiveEntries_no_busy cfg db entries absPath depth

theorem scanDiveEntries_no_busy (cfg : ScanCfg) (db : Database) (entries : List FsNode)
    (parent : String) (depth : Nat) :
    (scanDiveEntries cfg db entries parent depth).evs.count Event.busyInc = 0
    ∧ (scanDiveEntries cfg db entries parent depth).evs.count Event.busyDec = 0 := by
  cases entries with
  | nil => simp [scanDiveEntries]
  | cons e rest =>
      have h1 := scanDive_no_busy cfg db e (pathJoin parent e.name) (depth + 1)
      have h2 := scanDiveEntries_no_busy cfg
        (scanDive cfg db e (pathJoin parent e.name) (depth + 1)).db rest parent depth
      simp only [scanDiveEntries, List.count_append]
      omega

end

theorem matchAttempts_no_busy (ps : List String) :
    (ps.map Event.matchAttempt).count Event.busyInc = 0
    ∧ (ps.map Event.matchAttempt).count Event.busyDec = 0 := by
  induction ps with
  | nil => simp
  | cons p rest ih => simpa using ih

theorem loaded_events_no_busy (recs : List (Nat × MediaRecord)) (mk : String → Event)
    (hmk : ∀ s, mk s ≠ Event.busyInc ∧ mk s ≠ Event.busyDec) :
    (recs.map (fun ir => mk (recPathOrEmpty ir.2))).count Event.busyInc = 0
    ∧ (recs.map (fun ir => mk (recPathOrEmpty ir.2))).count Event.busyDec = 0 := by
  induction recs with
  | nil => simp
  | cons r rest ih =>
      obtain ⟨h1, h2⟩ := hmk (recPathOrEmpty r.2)
      simp only [List.map_cons, List.count_cons]
      constructor
      · have := ih.1
        simp [this, h1]
      · have := ih.2
        simp [this, h2]

/-- C1: the two gates are independent -- each conjunct constrains only
its own library's own channel.  On any library whose `loadStart`
channel is full (a load is admitted and not yet completed; its scan
gate is unconstrained), a further `load()` returns immediately with
the LibraryBusy error, produces no traversal, query, insertion or
handler event, and returns the library state and busy state entirely
unchanged (record counts, elapsed durations and lastScan included);
and symmetrically for `scan()` on any library whose `scanStart`
channel is full (its load gate unconstrained). -/
theorem library_busy_rejected_unchanged (cli : Bool) (matcher : Matcher) (fs : FsNode)
    (t1 t2 t3 t4 t5 : Nat) (lLoad lScan : Library) (busyL busyS : BusyState)
    (hL : lLoad.loadStartCount = 1) (hS : lScan.scanStartCount = 1) :
    Library.load cli t1 t2 lLoad busyL =
      { lib := lLoad, busy := busyL, count := 0, err := some RC.rcLibraryBusy, evs := [] }
    ∧ Library.scan cli matcher fs t3 t4 t5 lScan busyS =
      { lib := lScan, busy := busyS, count := 0, err := some RC.rcLibraryBusy, evs := [] } := by
  constructor
  · have h : ¬ (lLoad.loadStartCount < maxLibraryScanners) := by
      rw [hL, maxLibraryScanners]; omega
    simp only [Library.load, if_neg h]
  · have h : ¬ (lScan.scanStartCount < maxLibraryScanners) := by
      rw [hS, maxLibraryScanners]; omega
    simp only [Library.scan, if_neg h]

theorem idMatcher_preserves : matcherPreservesPaths idMatcher :=
  fun _ _ _ => ⟨rfl, rfl, fun _ => rfl⟩

/-- Witness for C1 at the program's actual busy states: a library with
only the load slot taken (scan gate idle) rejects a second load, and a
library with only the scan slot taken (load gate idle) rejects a
second scan. -/
theorem library_busy_rejected_unchanged_witness :
    Library.load true 0 0 { loadStartCount := 1 } {} =
      { lib := { loadStartCount := 1 }, busy := {}, count := 0,
        err := some RC.rcLibraryBusy, evs := [] }
    ∧ Library.scan true idMatcher (FsNode.dir "r" []) 0 0 0
        { scanStartCount := 1 } {} =
      { lib := { scanStartCount := 1 }, busy := {}, count := 0,
        err := some RC.rcLibraryBusy, evs := [] } :=
  library_busy_rejected_unchanged true idMatcher (FsNode.dir "r" []) 0 0 0 0 0
    { loadStartCount := 1 } { scanStartCount := 1 } {} {} rfl rfl

theorem load_admitted_parts (cli : Bool) (t1 t2 : Nat) (l : Library) (busy : BusyState)
    (h : l.loadStartCount < maxLibraryScanners) :
    (Library.load cli t1 t2 l busy).lib.loadStartCount = l.loadStartCount + 1 - 1
    ∧ (Library.load cli t1 t2 l busy).err = none
    ∧ (Library.load cli t1 t2 l busy).busy =
        (if cli then busy else (((busy.inc).1).dec).1)
    ∧ (Library.load cli t1 t2 l busy).evs =
        (if cli then [] else [Event.busyInc])
          ++ l.db.audio.recs.map (fun ir => Event.loadedMedia (recPathOrEmpty ir.2))
          ++ l.db.video.recs.map (fun ir => Event.loadedMedia (recPathOrEmpty ir.2))
          ++ l.db.subs.recs.map (fun ir => Event.loadedSupport (recPathOrEmpty ir.2))
          ++ (if cli then [] else [Event.busyDec]) := by
  refine ⟨?_, ?_, ?_, ?_⟩ <;> simp only [Library.load, loadDive, if_pos h] <;> cases cli <;> simp

/-- Counterexample to C2 as stated: in CLI mode an admitted and
completed load increments the process-wide busy counter zero times, not
exactly once (`busyState.inc()`/`.dec()` are guarded by `!isCLIMode`). -/
theorem cli_mode_load_busy_increment_missing :
    (Library.load true 0 0 {} {}).err = none
    ∧ ¬ ((Library.load true 0 0 {} {}).evs.count Event.busyInc = 1) := by decide

/-- C2 (amended): for every admitted `load()` or `scan()`, the
admission slot is freed on completion (occupancy returns to 0, so a
subsequent operation can be admitted), and -- when the process is not
in CLI mode -- the busy counter is incremented exactly once at
admission and decremented exactly once at completion (the final busy
state is exactly `inc` then `dec`); in CLI mode the busy counter is not
touched at all.  The only early-return path of `load()` (which would
leak the slot) is dead because loadDive's error is always nil. -/
theorem gates_release_and_busy_pairing (cli : Bool) (matcher : Matcher) (fs : FsNode)
    (t1 t2 t3 t4 t5 : Nat) (l : Library) (busy : BusyState)
    (hL : l.loadStartCount = 0) (hS : l.scanStartCount = 0) :
    ((Library.load cli t1 t2 l busy).lib.loadStartCount = 0)
    ∧ ((Library.load cli t1 t2 l busy).evs.count Event.busyInc = if cli then 0 else 1)
    ∧ ((Library.load cli t1 t2 l busy).evs.count Event.busyDec = if cli then 0 else 1)
    ∧ ((Library.load cli t1 t2 l busy).busy = if cli then busy else (((busy.inc).1).dec).1)
    ∧ ((Library.scan cli matcher fs t3 t4 t5 l busy).lib.scanStartCount = 0)
    ∧ ((Library.scan cli matcher fs t3 t4 t5 l busy).evs.count Event.busyInc = if cli then 0 else 1)
    ∧ ((Library.scan cli matcher fs t3 t4 t5 l busy).evs.count Event.busyDec = if cli then 0 else 1)
    ∧ ((Library.scan cli matcher fs t3 t4 t5 l busy).busy = if cli then busy else (((busy.inc).1).dec).1) := by
  have hl : l.loadStartCount < maxLibraryScanners := by rw [hL, maxLibraryScanners]; omega
  have hsc : l.scanStartCount < maxLibraryScanners := by rw [hS, maxLibraryScanners]; omega
  obtain ⟨lp1, lp2, lp3, lp4⟩ := load_admitted_parts cli t1 t2 l busy hl
  obtain ⟨sp1, sp2, sp3, sp4, sp5, sp6⟩ := scan_admitted_parts cli matcher fs t3 t4 t5 l busy hsc
  have hdive := scanDive_no_busy { maxDepth := l.maxDepth, rootPath := l.absPath, now := t5 }
    l.db fs l.absPath 1
  have hrecand : (match (scanDive { maxDepth := l.maxDepth, rootPath := l.absPath, now := t5 }
        l.db fs l.absPath 1).err with
      | none => (recandidateSubtitles matcher
          (scanDive { maxDepth := l.maxDepth, rootPath := l.absPath, now := t5 }
            l.db fs l.absPath 1).db false).2.1
      | some _ => ([] : List Event)).count Event.busyInc = 0
      ∧ (match (scanDive { maxDepth := l.maxDepth, rootPath := l.absPath, now := t5 }
        l.db fs l.absPath 1).err with
      | none => (recandidateSubtitles matcher
          (scanDive { maxDepth := l.maxDepth, rootPath := l.absPath, now := t5 }
            l.db fs l.absPath 1).db false).2.1
      | some _ => ([] : List Event)).count Event.busyDec = 0 := by
    rcases he : (scanDive { maxDepth := l.maxDepth, rootPath := l.absPath, now := t5 }
        l.db fs l.absPath 1).err with _ | e
    · simp only [he]
      obtain ⟨ps, hps⟩ := recandidateSubtitles_evs matcher
        (scanDive { maxDepth := l.maxDepth, rootPath := l.absPath, now := t5 }
          l.db fs l.absPath 1).db false
      rw [hps]
      exact matchAttempts_no_busy ps
    · simp only [he]
      simp
  obtain ⟨la1, la2⟩ := loaded_events_no_busy l.db.audio.recs Event.loadedMedia
    (fun s => ⟨(by intro hx; cases hx), (by intro hx; cases hx)⟩)
  obtain ⟨lv1, lv2⟩ := loaded_events_no_busy l.db.video.recs Event.loadedMedia
    (fun s => ⟨(by intro hx; cases hx), (by intro hx; cases hx)⟩)
  obtain ⟨ls1, ls2⟩ := loaded_events_no_busy l.db.subs.recs Event.loadedSupport
    (fun s => ⟨(by intro hx; cases hx), (by intro hx; cases hx)⟩)
  refine ⟨by rw [lp1, hL], ?_, ?_, lp3, by rw [sp2, hS], ?_, ?_, ?_⟩
  · rw [lp4]
    cases cli <;> simp [List.count_append, la1, lv1, ls1]
  · rw [lp4]
    cases cli <;> simp [List.count_append, la2, lv2, ls2]
  · rw [sp6]
    cases cli <;> simp [List.count_append, hdive.1, hdive.2, hrecand.1, hrecand.2]
  · rw [sp6]
    cases cli <;> simp [List.count_append, hdive.1, hdive.2, hrecand.1, hrecand.2]
  · simp only [Library.scan, if_pos hsc]
    cases cli <;> simp

/-- Witness for C2 in TUI (non-CLI) mode at a concrete library. -/
theorem gates_release_and_busy_pairing_witness :
    ((Library.load false 0 0 {} { busyCycle := 5 }).lib.loadStartCount = 0)
    ∧ ((Library.load false 0 0 {} { busyCycle := 5 }).evs.count Event.busyInc = 1)
    ∧ ((Library.load false 0 0 {} { busyCycle := 5 }).evs.count Event.busyDec = 1) := by
  obtain ⟨h1, h2, h3, _, _, _, _, _⟩ :=
    gates_release_and_busy_pairing false idMatcher (FsNode.dir "r" []) 0 0 0 0 0
      {} { busyCycle := 5 } rfl rfl
  exact ⟨h1, by simpa using h2, by simpa using h3⟩

/-- C4 (amended): with a non-zero depth limit `d` and the counter
starting at 1 at the root, no file at traversal depth greater than
`d + 1` is visited or indexed; every regular file of the tree at depth
at most `d + 1` (hence in particular at depth exactly `d`) is visited;
and a directory whose own depth exceeds `d` -- that is, whose next
depth would exceed `d + 1` -- is reported as DirDepth and not
descended into. -/
theorem depth_limited_traversal (cfg : ScanCfg) (db : Database) (fs : FsNode)
    (hd : cfg.maxDepth ≠ 0) :
    (∀ q k, Event.sawFile q k ∈ (scanDive cfg db fs cfg.rootPath 1).evs → k ≤ cfg.maxDepth + 1)
    ∧ (∀ q k, (q, k) ∈ reachFiles 0 fs cfg.rootPath 1 → k ≤ cfg.maxDepth + 1 →
        Event.sawFile q k ∈ (scanDive cfg db fs cfg.rootPath 1).evs)
    ∧ (∀ nm entries p k, cfg.maxDepth < k →
        scanDive cfg db (FsNode.dir nm entries) p k =
          { db := db, evs := [Event.dirDepth p k], err := some RC.rcDirDepth }) := by
  have hsaw := scanDive_saw cfg db fs cfg.rootPath 1
  refine ⟨?_, ?_, ?_⟩
  · intro q k hmem
    have hin : (q, k) ∈ (scanDive cfg db fs cfg.rootPath 1).evs.filterMap Event.sawOf := by
      exact List.mem_filterMap.mpr ⟨Event.sawFile q k, hmem, rfl⟩
    rw [hsaw] at hin
    exact reachFiles_depth_le cfg.maxDepth fs cfg.rootPath 1 hd (by omega) (q, k) hin
  · intro q k hmem hle
    have hin : (q, k) ∈ reachFiles cfg.maxDepth fs cfg.rootPath 1 :=
      reachFiles_complete cfg.maxDepth fs cfg.rootPath 1 hd (q, k) hmem hle
    rw [← hsaw] at hin
    obtain ⟨e, he, hsw⟩ := List.mem_filterMap.mp hin
    have : e = Event.sawFile q k := by
      cases e <;> simp [Event.sawOf] at hsw
      rw [hsw.1, hsw.2]
    rw [← this]
    exact he
  · intro nm entries p k hk
    have hcond : depthUnlimited ≠ cfg.maxDepth ∧ k > cfg.maxDepth :=
      ⟨fun h0 => hd h0.symm, hk⟩
    simp only [scanDive, if_pos hcond]

/-- Counterexample to C4 as stated: with `maxDepth = 1`, the regular
file at traversal depth 2 (root dir is depth 1, its entries depth 2) is
visited and indexed, although 2 exceeds the limit 1 -- the code prunes
a directory only when the directory's own depth already exceeds the
limit, so files one level below the limit are still indexed. -/
theorem depth_limit_offbyone_counterexample :
    Event.sawFile "/r/a.mp3" 2 ∈
      (scanDive { maxDepth := 1, rootPath := "/r", now := 0 } {}
        (FsNode.dir "r" [FsNode.file "a.mp3" {}]) "/r" 1).evs
    ∧ pathCount (scanDive { maxDepth := 1, rootPath := "/r", now := 0 } {}
        (FsNode.dir "r" [FsNode.file "a.mp3" {}]) "/r" 1).db.audio "/r/a.mp3" = 1
    ∧ ({ maxDepth := 1, rootPath := "/r", now := 0 } : ScanCfg).maxDepth < 2 := by
  decide

/-- Witness for C4 with limit 1: the file at depth 2 satisfies the
bound, and a directory at depth 2 is pruned with DirDepth. -/
theorem depth_limited_traversal_witness :
    (2 ≤ ({ maxDepth := 1, rootPath := "/r", now := 0 } : ScanCfg).maxDepth + 1)
    ∧ scanDive { maxDepth := 1, rootPath := "/r", now := 0 } {} (FsNode.dir "s" []) "/r/s" 2 =
      { db := {}, evs := [Event.dirDepth "/r/s" 2], err := some RC.rcDirDepth } :=
  ⟨(depth_limited_traversal { maxDepth := 1, rootPath := "/r", now := 0 } {}
      (FsNode.dir "r" [FsNode.file "a.mp3" {}]) (by decide)).1 "/r/a.mp3" 2 (by decide),
    (depth_limited_traversal { maxDepth := 1, rootPath := "/r", now := 0 } {}
      (FsNode.dir "r" [FsNode.file "a.mp3" {}]) (by decide)).2.2 "s" [] "/r/s" 2 (by decide)⟩

/-- Counterexample to C6 as stated: with one orphan subtitle and a
matcher whose matching step fails, `recandidateSubtitles` returns the
error, yet `scan()` -- which invokes it without binding its result --
returns nil error to its caller. -/
theorem recandidate_error_discarded_by_scan :
    (recandidateSubtitles failMatcher dbOneOrphan false).2.2 = some RC.rcInvalidFile
    ∧ (Library.scan true failMatcher (FsNode.dir "r" []) 0 0 0
        { absPath := "/r", db := dbOneOrphan } {}).err = none := by
  decide

/-- C6 (amended): a per-subtitle matching error stops the processing
of the remaining orphaned subtitles immediately and becomes
`recandidateSubtitles`' return value, but `scan()` discards that value:
scan's returned error is always the traversal's (`scanDive`) error,
never the reconciliation pass's. -/
theorem recandidate_error_stops_and_is_discarded
    (matcher : Matcher) (db : Database) (o : RecordID) (rest : List RecordID) (e : RC)
    (hm : (matcher db o.entity o.id).err = some e)
    (cli : Bool) (fs : FsNode) (t1 t2 t3 : Nat) (l : Library) (busy : BusyState)
    (hS : l.scanStartCount = 0) :
    recandidateLoop matcher db (o :: rest) =
      ((matcher db o.entity o.id).db, [Event.matchAttempt o.entity.absPath], some e)
    ∧ (Library.scan cli matcher fs t1 t2 t3 l busy).err =
      (scanDive { maxDepth := l.maxDepth, rootPath := l.absPath, now := t3 }
        l.db fs l.absPath 1).err := by
  constructor
  · simp only [recandidateLoop, hm]
  · exact (scan_admitted_parts cli matcher fs t1 t2 t3 l busy
      (by rw [hS, maxLibraryScanners]; omega)).2.2.2.2.1

/-- Witness for C6 at a concrete failing matcher: the second orphan
is never processed and scan's error is the traversal's. -/
theorem recandidate_error_stops_and_is_discarded_witness :
    recandidateLoop failMatcher dbOneOrphan [⟨0, {}⟩, ⟨1, {}⟩] =
      ((failMatcher dbOneOrphan {} 0).db, [Event.matchAttempt ""], some RC.rcInvalidFile)
    ∧ (Library.scan true failMatcher (FsNode.dir "r" []) 0 0 0
        { absPath := "/r", db := dbOneOrphan } {}).err =
      (scanDive { maxDepth := 0, rootPath := "/r", now := 0 }
        dbOneOrphan (FsNode.dir "r" []) "/r" 1).err :=
  recandidate_error_stops_and_is_discarded failMatcher dbOneOrphan ⟨0, {}⟩ [⟨1, {}⟩]
    RC.rcInvalidFile rfl true (FsNode.dir "r" []) 0 0 0
    { absPath := "/r", db := dbOneOrphan } {} rfl

/-- C7: when the traversal reaches a regular file whose lowercased
extension appears in no audio, video or subtitle classification table,
it invokes only the "other" handler with the library and absolute
path: no index query, no record insertion, no media or support handler
notification, and the database is returned unchanged. -/
theorem unmatched_extension_other_handler_only (cfg : ScanCfg) (db : Database) (name : String)
    (info : FileAttrs) (absPath : String) (depth : Nat)
    (ha : ∀ nl ∈ audioExtTable, goToLower (goPathExt absPath) ∉ nl.2)
    (hv : ∀ nl ∈ videoExtTable, goToLower (goPathExt absPath) ∉ nl.2)
    (hs : ∀ nl ∈ subsExtTable, goToLower (goPathExt absPath) ∉ nl.2) :
    scanDive cfg db (FsNode.file name info) absPath depth =
      { db := db, evs := [Event.sawFile absPath depth, Event.handledOther absPath],
        err := none } := by
  have h1 := kindOfFileExt_not_found audioExtTable (goToLower (goPathExt absPath)) ha
  have h2 := kindOfFileExt_not_found videoExtTable (goToLower (goPathExt absPath)) hv
  have h3 := kindOfFileExt_not_found subsExtTable (goToLower (goPathExt absPath)) hs
  have hm : mediaKindOfFileExt (goPathExt absPath) = (MediaKind.mkUnknown, "") := by
    simp [mediaKindOfFileExt, mediaExtList, lookupKindTables, h1, h2]
  have hsup : supportKindOfFileExt (goPathExt absPath) = (MediaSupportKind.mskUnknown, "") := by
    simp [supportKindOfFileExt, mediaSupportKindOfFileExt, lookupSupportTables, h3]
  simp [scanDive, scanFile, hm, hsup]

/-- Witness for C7 at a concrete `.txt` file. -/
theorem unmatched_extension_other_handler_only_witness :
    scanDive { maxDepth := 0, rootPath := "/r", now := 0 } {}
      (FsNode.file "notes.txt" {}) "/r/notes.txt" 2 =
      { db := {}, evs := [Event.sawFile "/r/notes.txt" 2, Event.handledOther "/r/notes.txt"],
        err := none } :=
  unmatched_extension_other_handler_only { maxDepth := 0, rootPath := "/r", now := 0 } {}
    "notes.txt" {} "/r/notes.txt" 2 (by decide) (by decide) (by decide)

/-- Witness for C3 at a concrete one-file library. -/
theorem scan_indexes_each_matched_file_once_witness :
    countIn (Library.scan true idMatcher (FsNode.dir "r" [FsNode.file "a.mp3" {}]) 0 0 0
        { absPath := "/r" } {}).lib.db (bucketOf "/r/a.mp3") "/r/a.mp3" = 1 :=
  (scan_indexes_each_matched_file_once true idMatcher (FsNode.dir "r" [FsNode.file "a.mp3" {}])
      0 0 0 0 0 0 { absPath := "/r" } {} rfl rfl idMatcher_preserves
      (by intro b hb q; cases b <;> exact Nat.zero_le 1)).1
    "/r/a.mp3" (by decide) (by decide)
